import Mathlib

/-!
Verification of the YAML-to-QTI conversion core of teacheraide2
(`src/utils/yaml_converter.py`, class `YAMLtoQTIConverter`).

The Python code is shallowly embedded: Python strings become `List Char`,
Python dicts become insertion-ordered association lists over an untyped
`Value` type, and every fallible operation returns `Except`.  Each
definition carries a reference to the source lines it transcribes.
-/

namespace TeacherAide

/-- Python strings are modelled as lists of characters. -/
abbrev Str := List Char

/-- Turn a Lean string literal into the model's string type. -/
def S (s : String) : Str := s.data

/-- The characters Python's default `str.strip()` removes (ASCII subset;
all inputs handled by the converter are ASCII-flavoured text). -/
def pySpace (c : Char) : Bool :=
  c = ' ' || c = '\t' || c = '\n' || c = '\r' || c = '\x0b' || c = '\x0c'

/-- Python `str.lstrip()`. -/
def pyLstrip (s : Str) : Str := s.dropWhile pySpace

/-- Python `str.rstrip()`. -/
def pyRstrip (s : Str) : Str := (s.reverse.dropWhile pySpace).reverse

/-- Python `str.strip()`. -/
def pyStrip (s : Str) : Str := pyRstrip (pyLstrip s)

/-- Member of the character set in Python `strip('"\'')`. -/
def isQuoteChar (c : Char) : Bool := c = '"' || c = '\''

/-- Python `str.strip('"\'')`: peel quote characters from both ends. -/
def pyStripQuotes (s : Str) : Str :=
  ((s.dropWhile isQuoteChar).reverse.dropWhile isQuoteChar).reverse

/-- The idiom `value.strip().strip('"\'')` used throughout the parser. -/
def scalarClean (s : Str) : Str := pyStripQuotes (pyStrip s)

/-- Python `s.startswith(pat)`. -/
def startsWith (s pat : Str) : Bool := pat.isPrefixOf s

/-- Python substring membership `pat in s`. -/
def containsSub : Str → Str → Bool
  | [], pat => pat.isEmpty
  | s@(_ :: rest), pat => pat.isPrefixOf s || containsSub rest pat

/-- Helper for `rindexSub`: last index at which `pat` matches. -/
def rindexSubGo : Str → Str → Nat → Nat → Nat
  | [], pat, i, best => if pat.isEmpty then i else best
  | s@(_ :: rest), pat, i, best =>
      rindexSubGo rest pat (i + 1) (if pat.isPrefixOf s then i else best)

/-- Python `s.rindex(pat)` (only ever called after a `pat in s` check;
returns 0 when the pattern does not occur). -/
def rindexSub (s pat : Str) : Nat := rindexSubGo s pat 0 0

/-- Python `str.lower()` (ASCII). -/
def pyLower (s : Str) : Str := s.map Char.toLower

/-- Python `s.split(sep, 1)` restricted to a single separator character:
the part before the first occurrence and the part after it. -/
def splitOnce : Str → Char → Option (Str × Str)
  | [], _ => none
  | c :: rest, sep =>
      if c = sep then some ([], rest)
      else (splitOnce rest sep).map (fun p => (c :: p.1, p.2))

/-- Python `s.split('\n')`: always at least one piece, empty trailing piece
after a final newline. -/
def splitLines : Str → List Str
  | [] => [[]]
  | c :: rest =>
      if c = '\n' then [] :: splitLines rest
      else
        match splitLines rest with
        | l :: ls => (c :: l) :: ls
        | [] => [[c]]

/-- Inverse of `splitLines`: join pieces with newlines. -/
def joinLines : List Str → Str
  | [] => []
  | [l] => l
  | l :: ls => l ++ '\n' :: joinLines ls

/-- Python `str.isalnum()` (ASCII letters and digits; the converter's
inputs stay in that range). -/
def pyIsAlnum (c : Char) : Bool := c.isAlphanum

/-- Decimal rendering of a natural number, as Python `str()` produces. -/
def natToStr (n : Nat) : Str := Nat.toDigits 10 n

/-- Python `str()` of an integer. -/
def intToStr (n : Int) : Str :=
  if n < 0 then '-' :: natToStr n.natAbs else natToStr n.toNat

/-- Python `s.replace(pat, rep)` (full scan, non-overlapping). -/
def pyReplace (s pat rep : Str) : Str :=
  match s, pat with
  | s, [] => s
  | [], _ => []
  | c :: rest, p :: ps =>
      if (p :: ps).isPrefixOf (c :: rest) then
        rep ++ pyReplace ((c :: rest).drop (p :: ps).length) (p :: ps) rep
      else
        c :: pyReplace rest (p :: ps) rep
termination_by s.length
decreasing_by
  · simp only [List.length_drop, List.length_cons]
    omega
  · simp

/-- Python `int(str)`: optional sign followed by decimal digits (the
converter only ever feeds it stripped scalar text). -/
def pyIntOfStr (s : Str) : Option Int :=
  let core : Str → Option Nat := fun ds =>
    if ds.isEmpty then none
    else if ds.all Char.isDigit then
      some (ds.foldl (fun acc c => acc * 10 + (c.toNat - '0'.toNat)) 0)
    else none
  match pyStrip s with
  | '-' :: ds => (core ds).map (fun n => -(n : Int))
  | '+' :: ds => (core ds).map (fun n => (n : Int))
  | ds => (core ds).map (fun n => (n : Int))

/-- Untyped Python values as the parser produces them: strings, booleans,
integers, lists and dicts. -/
inductive Value where
  | vstr (s : Str)
  | vbool (b : Bool)
  | vint (n : Int)
  | vlist (xs : List Value)
  | vdict (fields : List (Str × Value))

/-- A Python dict with string keys, insertion ordered. -/
abbrev Dict := List (Str × Value)

/-- Python `d.get(key)`. -/
def dget : Dict → Str → Option Value
  | [], _ => none
  | (k, v) :: rest, key => if k = key then some v else dget rest key

/-- Python `d.get(key, default)`. -/
def dgetD (d : Dict) (key : Str) (dflt : Value) : Value := (dget d key).getD dflt

/-- Python `key in d`. -/
def hasKey (d : Dict) (key : Str) : Bool := (dget d key).isSome

/-- Python `d[key] = v`: update in place, else append. -/
def dset : Dict → Str → Value → Dict
  | [], key, v => [(key, v)]
  | (k, w) :: rest, key, v =>
      if k = key then (key, v) :: rest else (k, w) :: dset rest key v

/-- Python truthiness of a value. -/
def pyTruthy : Value → Bool
  | .vstr s => !s.isEmpty
  | .vbool b => b
  | .vint n => n != 0
  | .vlist xs => !xs.isEmpty
  | .vdict d => !d.isEmpty

/-- Python truthiness of `d.get(k)` (a missing key is `None`, falsy). -/
def truthyOpt : Option Value → Bool
  | none => false
  | some v => pyTruthy v

/-- Python `str()` of a value as it appears in f-strings and
`template.format`.  Containers never reach a string position in any
exercised path of the converter, so their `repr` is abbreviated. -/
def pyToStr : Value → Str
  | .vstr s => s
  | .vbool true => S "True"
  | .vbool false => S "False"
  | .vint n => intToStr n
  | .vlist _ => S "[...]"
  | .vdict _ => S "\x7b...\x7d"

/-- Python `int(value)` on an arbitrary value (`bool` is an `int`
subclass in Python, so booleans convert to 0/1). -/
def pyIntOfValue : Value → Option Int
  | .vstr s => pyIntOfStr s
  | .vbool b => some (if b then 1 else 0)
  | .vint n => some n
  | _ => none

/-!
## The structural parser

`_custom_yaml_parse` (src/utils/yaml_converter.py lines 655-1021): a
line-oriented state machine over one question block.
-/

/-- Python `s.endswith(pat)`. -/
def endsWith (s pat : Str) : Bool := pat.isSuffixOf s

/-- The mutable locals of the parsing loop (lines 668-701). -/
structure PState where
  qdict : Dict
  inChoices : Bool
  choices : List Dict
  currentChoice : Option Dict
  inFibAnswers : Bool
  fibAnswers : List (List Str)
  currentFibAnswer : Option (List Str)
  inMatchSets : Bool
  matchSource : List Dict
  matchTarget : List Dict
  inSource : Bool
  inTarget : Bool
  currentMatchItem : Option Dict
  inCorrectPairs : Bool
  correctPairs : List (List Str)
  currentPair : List Str
  inCorrectSequence : Bool
  correctSequence : List Str

/-- Initial loop state for one block (lines 668-701), with the dict already
holding the `type` field parsed from the header line. -/
def initPState (d : Dict) : PState :=
  { qdict := d, inChoices := false, choices := [], currentChoice := none,
    inFibAnswers := false, fibAnswers := [], currentFibAnswer := none,
    inMatchSets := false, matchSource := [], matchTarget := [],
    inSource := false, inTarget := false, currentMatchItem := none,
    inCorrectPairs := false, correctPairs := [], currentPair := [],
    inCorrectSequence := false, correctSequence := [] }

/-- Truthiness of an optional dict (`None` and `{}` are falsy). -/
def truthyODict : Option Dict → Bool
  | none => false
  | some d => !d.isEmpty

/-- Truthiness of an optional list (`None` and `[]` are falsy). -/
def truthyOList : Option (List Str) → Bool
  | none => false
  | some l => !l.isEmpty

/-- `question_dict.get('type') == t` for a string literal `t`: Python's
`==` between a non-string (or a missing key) and a string is `False`. -/
def isTypeStr (o : Option Value) (t : Str) : Bool :=
  match o with
  | some (.vstr s) => s = t
  | _ => false

/-- Outcome of one pass over the current line: the line was consumed
(together with `extra` following lines), or control said `continue`
without advancing (`reprocess`), or the stage fell through to the next
stage of the loop body. -/
inductive Flow where
  | done (st : PState) (extra : Nat)
  | reprocess (st : PState)
  | fall (st : PState)

/-- Lines 711-809: the `match`-type stages (matchSets, correctPairs). -/
def stepMatch (st : PState) (line ls : Str) : Flow :=
  -- line 714: `matchSets:` opens the section
  if ls = S "matchSets:" then
    .done { st with inMatchSets := true } 0
  else if st.inMatchSets then
    -- line 722: `source:` subsection (flushing a pending target item)
    if ls = S "source:" then
      let st :=
        if st.inTarget && truthyODict st.currentMatchItem then
          { st with matchTarget := st.matchTarget ++ [st.currentMatchItem.getD []],
                    currentMatchItem := none }
        else st
      .done { st with inSource := true, inTarget := false } 0
    -- line 734: `target:` subsection (flushing a pending source item)
    else if ls = S "target:" then
      let st :=
        if st.inSource && truthyODict st.currentMatchItem then
          { st with matchSource := st.matchSource ++ [st.currentMatchItem.getD []],
                    currentMatchItem := none }
        else st
      .done { st with inSource := false, inTarget := true } 0
    -- line 746: a new `- identifier:` item inside source/target
    else if (st.inSource || st.inTarget) && startsWith ls (S "- identifier:") then
      let st :=
        if truthyODict st.currentMatchItem then
          if st.inSource then
            { st with matchSource := st.matchSource ++ [st.currentMatchItem.getD []] }
          else
            { st with matchTarget := st.matchTarget ++ [st.currentMatchItem.getD []] }
        else st
      .fall { st with currentMatchItem := some [(S "identifier", .vstr (scalarClean (ls.drop 13)))] }
    -- line 758: a `key: value` field of the current item (`matchMax` as int)
    else if truthyODict st.currentMatchItem && containsSub line [':'] &&
        (st.inSource || st.inTarget) then
      match splitOnce ls ':' with
      | none => .fall st
      | some (f, v) =>
          let field := pyStrip f
          let value := scalarClean v
          let value : Value :=
            if field = S "matchMax" then
              match pyIntOfStr value with
              | some n => .vint n
              | none => .vstr value
            else .vstr value
          let cmi := some (dset (st.currentMatchItem.getD []) field value)
          .fall { st with currentMatchItem := cmi }
    -- line 772: a non-indented line ends matchSets; reprocess it
    else if !(startsWith line (S " ")) then
      let st :=
        if truthyODict st.currentMatchItem then
          if st.inSource then
            { st with matchSource := st.matchSource ++ [st.currentMatchItem.getD []],
                      currentMatchItem := none }
          else
            { st with matchTarget := st.matchTarget ++ [st.currentMatchItem.getD []],
                      currentMatchItem := none }
        else st
      .reprocess { st with
        qdict := dset st.qdict (S "matchSets")
          (.vdict [(S "source", .vlist (st.matchSource.map .vdict)),
                   (S "target", .vlist (st.matchTarget.map .vdict))]),
        inMatchSets := false, inSource := false, inTarget := false }
    else .fall st
  -- line 790: `correctPairs:` opens the pair list
  else if ls = S "correctPairs:" then
    .done { st with inCorrectPairs := true } 0
  else if st.inCorrectPairs then
    -- line 797: `- - X` starts a new pair
    if startsWith ls (S "- - ") then
      .fall { st with currentPair := [scalarClean (ls.drop 4)] }
    -- line 800: the source tests `line.strip().startswith('  - ')`, which
    -- can never hold after strip; transcribed as written (dead branch)
    else if startsWith ls (S "  - ") && !st.currentPair.isEmpty then
      .fall { st with correctPairs := st.correctPairs ++ [st.currentPair ++ [scalarClean (ls.drop 4)]],
                      currentPair := [] }
    -- line 806: non-indented line ends correctPairs; reprocess it
    else if !(startsWith line (S " ")) then
      .reprocess { st with
        qdict := dset st.qdict (S "correctPairs")
          (.vlist (st.correctPairs.map fun p => .vlist (p.map Value.vstr))),
        inCorrectPairs := false }
    else .fall st
  else .fall st

/-- The stored form of the accumulated FIB answer groups. -/
def fibGroupsVal (gs : List (List Str)) : Value :=
  .vlist (gs.map fun g => .vlist (g.map Value.vstr))

/-- Lines 811-857: the `fib`-type stage (`correctAnswers` groups). -/
def stepFib (st : PState) (line ls : Str) : Flow :=
  -- line 814: `correctAnswers:` opens the section
  if ls = S "correctAnswers:" then
    .done { st with inFibAnswers := true, fibAnswers := [], currentFibAnswer := some [] } 0
  else if st.inFibAnswers then
    -- line 824: a bare `- -` starts a new (still empty) answer group
    if ls = S "- -" then
      let st :=
        if truthyOList st.currentFibAnswer then
          { st with fibAnswers := st.fibAnswers ++ [st.currentFibAnswer.getD []] }
        else st
      .done { st with currentFibAnswer := some [] } 0
    -- line 833: `- - answer` starts a new group holding that answer
    else if startsWith ls (S "- - ") && decide (4 < ls.length) then
      let st :=
        if truthyOList st.currentFibAnswer then
          { st with fibAnswers := st.fibAnswers ++ [st.currentFibAnswer.getD []] }
        else st
      .fall { st with currentFibAnswer := some [scalarClean (ls.drop 4)] }
    -- line 843: the source tests `line.strip().startswith('  - ')`, which
    -- can never hold after strip; transcribed as written (dead branch).
    -- Its comment says it should append an alternative to the current group.
    else if startsWith ls (S "  - ") then
      let cfa := some (st.currentFibAnswer.getD [] ++ [scalarClean (ls.drop 4)])
      .fall { st with currentFibAnswer := cfa }
    -- line 849: non-indented line ends correctAnswers; reprocess it
    else if !(startsWith line (S " ")) then
      let st :=
        if truthyOList st.currentFibAnswer then
          { st with fibAnswers := st.fibAnswers ++ [st.currentFibAnswer.getD []] }
        else st
      .reprocess { st with
        qdict := dset st.qdict (S "correctAnswers") (fibGroupsVal st.fibAnswers),
        inFibAnswers := false, currentFibAnswer := some [] }
    else .fall st
  else .fall st

/-- Lines 859-878: the `order`-type stage (`correctSequence`). -/
def stepOrder (st : PState) (line ls : Str) : Flow :=
  -- line 862: `correctSequence:` opens the section
  if ls = S "correctSequence:" then
    .done { st with inCorrectSequence := true } 0
  else if st.inCorrectSequence then
    -- line 869: `- item`
    if startsWith ls (S "- ") then
      .fall { st with correctSequence := st.correctSequence ++ [scalarClean (ls.drop 2)] }
    -- line 875: non-indented line ends the sequence; reprocess it
    else if !(startsWith line (S " ")) then
      .reprocess { st with
        qdict := dset st.qdict (S "correctSequence")
          (.vlist (st.correctSequence.map Value.vstr)),
        inCorrectSequence := false }
    else .fall st
  else .fall st

/-- Lines 711-878: dispatch on `question_dict.get('type')`. -/
def stepTyped (st : PState) (line ls : Str) : Flow :=
  if isTypeStr (dget st.qdict (S "type")) (S "match") then stepMatch st line ls
  else if isTypeStr (dget st.qdict (S "type")) (S "fib") then stepFib st line ls
  else if isTypeStr (dget st.qdict (S "type")) (S "order") then stepOrder st line ls
  else .fall st

/-- Lines 913-925: scan the following raw lines for the closing triple
quote; returns the collected parts and how many extra lines the loop
consumed (0 when no closing quote is found, as the source leaves `i`
unchanged in that case). -/
def tripleScan : List Str → Str → (List Str × Nat)
  | [], _ => ([], 0)
  | l :: rest, qt =>
      if containsSub l qt then ([l.take (rindexSub l qt)], 1)
      else
        let p := tripleScan rest qt
        (l :: p.1, if p.2 = 0 then 0 else p.2 + 1)

/-- Python `' '.join(parts)`. -/
def joinSpace : List Str → Str
  | [] => []
  | [p] => p
  | p :: ps => p ++ ' ' :: joinSpace ps

/-- Lines 886-942: the generic choices section (used by mcq/mrq; entered
for any type whose line fell through). -/
def stepChoices (st : PState) (line ls : Str) (rest : List Str) : Flow :=
  if !st.inChoices then .fall st
  else
    -- line 889: `- identifier:` starts a new choice
    if startsWith ls (S "- identifier:") then
      let st :=
        if truthyODict st.currentChoice then
          { st with choices := st.choices ++ [st.currentChoice.getD []] }
        else st
      .fall { st with currentChoice := some [(S "identifier", .vstr (scalarClean (ls.drop 13)))] }
    -- line 898: `field: value` of the current choice
    else if truthyODict st.currentChoice && containsSub line [':'] then
      match splitOnce ls ':' with
      | none => .fall st
      | some (f, v) =>
          let field := pyStrip f
          let value := scalarClean v
          if field = S "text" then
            -- lines 905-925: the triple-quote handler; `value` was already
            -- stripped of quote characters at line 901, so neither
            -- `startswith` can succeed — transcribed as written (dead)
            if startsWith value (S "\"\"\"") || startsWith value (S "'''") then
              let quoteType := value.take 3
              if containsSub (value.drop 3) quoteType then
                let endQuote := rindexSub value quoteType
                let value := (value.drop 3).take (endQuote - 3)
                let cc := some (dset (st.currentChoice.getD []) field (.vstr value))
                .fall { st with currentChoice := cc }
              else
                let p := tripleScan rest quoteType
                let value := joinSpace ((value.drop 3) :: p.1)
                let cc := some (dset (st.currentChoice.getD []) field (.vstr value))
                -- the remaining stages are no-ops while `inChoices` holds,
                -- so consuming the scanned lines here is equivalent
                .done { st with currentChoice := cc } p.2
            else
              let cc := some (dset (st.currentChoice.getD []) field (.vstr value))
              .fall { st with currentChoice := cc }
          else if field = S "correct" then
            -- line 929: the only boolean-coerced choice field
            let cc := some (dset (st.currentChoice.getD []) field (.vbool (pyLower value = S "true")))
            .fall { st with currentChoice := cc }
          else
            let cc := some (dset (st.currentChoice.getD []) field (.vstr value))
            .fall { st with currentChoice := cc }
    -- line 934: non-indented line ends the choices section; reprocess it
    else if !(startsWith line (S " ")) then
      let cs :=
        if truthyODict st.currentChoice then st.choices ++ [st.currentChoice.getD []]
        else st.choices
      .reprocess { st with
        qdict := dset st.qdict (S "choices") (.vlist (cs.map .vdict)),
        choices := cs, currentChoice := none, inChoices := false }
    else .fall st

/-- Lines 958-963: boolean coercion of a top-level scalar value. -/
def coerceScalar (v : Str) : Value :=
  if pyLower v = S "true" then .vbool true
  else if pyLower v = S "false" then .vbool false
  else .vstr v

/-- Lines 950-956: quote stripping of a top-level scalar value.  The
single-quote test runs first, so the triple-quote branch is unreachable
(any value that begins and ends with `\"\"\"` also begins and ends with
`\"`); transcribed as written. -/
def stripScalarQuotes (v : Str) : Str :=
  if (startsWith v (S "\"") && endsWith v (S "\"")) ||
     (startsWith v (S "'") && endsWith v (S "'")) then
    (v.drop 1).take (v.length - 2)
  else if (startsWith v (S "\"\"\"") && endsWith v (S "\"\"\"")) ||
          (startsWith v (S "'''") && endsWith v (S "'''")) then
    (v.drop 3).take (v.length - 6)
  else v

/-- Lines 944-964: a top-level `key: value` line, processed only when no
list mode is active; every field's value goes through boolean coercion. -/
def stepRegular (st : PState) (line : Str) : Flow :=
  if containsSub line [':'] && !st.inChoices && !st.inMatchSets &&
     !st.inCorrectPairs && !st.inCorrectSequence && !st.inFibAnswers then
    match splitOnce line ':' with
    | none => .fall st
    | some (k, v) =>
        let key := pyStrip k
        let value := stripScalarQuotes (pyStrip v)
        .fall { st with qdict := dset st.qdict key (coerceScalar value) }
  else .fall st

/-- One iteration of the parsing loop (lines 703-966) on the current raw
line, given the remaining raw lines. -/
def stepLine (st : PState) (raw : Str) (rest : List Str) : Flow :=
  let line := pyRstrip raw
  let ls := pyStrip line
  -- line 707: skip empty lines
  if ls.isEmpty then .done st 0
  else
    match stepTyped st line ls with
    | .done st e => .done st e
    | .reprocess st => .reprocess st
    | .fall st =>
      -- line 881: `choices:` opens the generic choices section
      if ls = S "choices:" then .done { st with inChoices := true } 0
      else
        match stepChoices st line ls rest with
        | .done st e => .done st e
        | .reprocess st => .reprocess st
        | .fall st =>
            match stepRegular st line with
            | .done st e => .done st e
            | .reprocess st => .reprocess st
            | .fall st => .done st 0

/-- The parsing loop driver.  `fuel` dominates the number of iterations;
each `reprocess` (`continue` without advancing) clears at least one mode
flag in the source, so `8 * (number of lines) + 8` iterations always
suffice. -/
def runLines : Nat → PState → List Str → PState
  | 0, st, _ => st
  | _ + 1, st, [] => st
  | fuel + 1, st, l :: rest =>
      match stepLine st l rest with
      | .done st extra => runLines fuel st (rest.drop extra)
      | .reprocess st => runLines fuel st (l :: rest)
      | .fall st => runLines fuel st rest

/-- `.get('identifier')` on one element of a match set (always a dict in
parser-produced data; the source would raise otherwise). -/
def itemIdentifier : Value → Option Value
  | .vdict d => dget d (S "identifier")
  | _ => none

/-- Lines 996-1006: positional default pairs.  The loop walks indices
`0 ≤ i < min(len(source), len(target))` — here both lists in step — and
appends `[source_id, target_id]` only when both identifiers are truthy. -/
def genDefaultPairs : List Value → List Value → List Value
  | x :: xs, y :: ys =>
      (match itemIdentifier x, itemIdentifier y with
       | some sid, some tid =>
           if pyTruthy sid && pyTruthy tid then [Value.vlist [sid, tid]] else []
       | _, _ => []) ++ genDefaultPairs xs ys
  | _, _ => []

/-- Lines 987-1008: synthesize `correctPairs` when `matchSets` is present
(with truthy source and target lists) and `correctPairs` is absent. -/
def matchDefaultPairs (d : Dict) : Dict :=
  if hasKey d (S "matchSets") && !hasKey d (S "correctPairs") then
    match dget d (S "matchSets") with
    | some (.vdict ms) =>
        match dget ms (S "source"), dget ms (S "target") with
        | some (.vlist src), some (.vlist tgt) =>
            if !src.isEmpty && !tgt.isEmpty then
              dset d (S "correctPairs") (.vlist (genDefaultPairs src tgt))
            else d
        | _, _ => d
    | _ => d
  else d

/-- Lines 968-1019: finalization after the loop ends. -/
def finishBlock (st : PState) : Dict :=
  -- lines 969-971: a still-open choice
  let st :=
    if st.inChoices && truthyODict st.currentChoice then
      let cs := st.choices ++ [st.currentChoice.getD []]
      { st with choices := cs,
                qdict := dset st.qdict (S "choices") (.vlist (cs.map .vdict)) }
    else st
  -- lines 974-1008: match finalization
  let st :=
    if isTypeStr (dget st.qdict (S "type")) (S "match") then
      let st :=
        if st.inMatchSets && truthyODict st.currentMatchItem then
          let st :=
            if st.inSource then
              { st with matchSource := st.matchSource ++ [st.currentMatchItem.getD []] }
            else if st.inTarget then
              { st with matchTarget := st.matchTarget ++ [st.currentMatchItem.getD []] }
            else st
          let msv : Value :=
            .vdict [(S "source", .vlist (st.matchSource.map .vdict)),
                    (S "target", .vlist (st.matchTarget.map .vdict))]
          { st with qdict := dset st.qdict (S "matchSets") msv }
        else st
      let st :=
        if st.inCorrectPairs then
          let cpv : Value := .vlist (st.correctPairs.map fun p => .vlist (p.map Value.vstr))
          { st with qdict := dset st.qdict (S "correctPairs") cpv }
        else st
      { st with qdict := matchDefaultPairs st.qdict }
    else st
  -- lines 1011-1012: order finalization
  let st :=
    if isTypeStr (dget st.qdict (S "type")) (S "order") && st.inCorrectSequence then
      let csv : Value := .vlist (st.correctSequence.map Value.vstr)
      { st with qdict := dset st.qdict (S "correctSequence") csv }
    else st
  -- lines 1015-1017: fib finalization
  let st :=
    if isTypeStr (dget st.qdict (S "type")) (S "fib") && st.inFibAnswers &&
       truthyOList st.currentFibAnswer then
      let cav : Value := fibGroupsVal (st.fibAnswers ++ [st.currentFibAnswer.getD []])
      { st with qdict := dset st.qdict (S "correctAnswers") cav }
    else st
  st.qdict

/-- A line at which `re.split(r'(?=^- type:)', …, re.MULTILINE)` starts a
new block. -/
def isMarkerLine (l : Str) : Bool := startsWith l (S "- type:")

/-- Group the lines of the input into blocks, one per `- type:` marker,
with a possibly empty leading block (the zero-width split also yields a
leading empty piece when the input starts with a marker). -/
def groupBlocksGo : List Str → List Str → List (List Str)
  | acc, [] => [acc.reverse]
  | acc, l :: rest =>
      if isMarkerLine l then acc.reverse :: groupBlocksGo [l] rest
      else groupBlocksGo (l :: acc) rest

/-- Line 660: split the raw text before every line starting `- type:`. -/
def splitTypeBlocks (s : Str) : List Str :=
  (groupBlocksGo [] (splitLines s)).map joinLines

/-- Lines 667-676: set up one block: strip it, split into lines, read the
`- type:` header, then run the loop from the second line on. -/
def parseBlock (block : Str) : Dict :=
  let ls := splitLines (pyStrip block)
  let d0 : Dict :=
    match ls with
    | l :: _ =>
        if startsWith l (S "- type:") then
          match splitOnce l ':' with
          | some (_, v) => dset [] (S "type") (.vstr (scalarClean v))
          | none => []
        else []
    | [] => []
  finishBlock (runLines (ls.length * 8 + 8) (initPState d0) (ls.drop 1))

/-- Lines 655-1021: `_custom_yaml_parse` — split into blocks, skip blank
blocks, parse each. -/
def customYamlParse (s : Str) : List Dict :=
  (splitTypeBlocks s).filterMap fun block =>
    if (pyStrip block).isEmpty then none else some (parseBlock block)

/-!
## Escaping, templates and the XML emitters
-/

/-- Lines 216-233: `_escape_xml_chars` — sequential `str.replace` over the
five XML special characters, in the source's dict order. -/
def escapeXmlChars (s : Str) : Str :=
  let s := pyReplace s (S "&") (S "&amp;")
  let s := pyReplace s (S "<") (S "&lt;")
  let s := pyReplace s (S ">") (S "&gt;")
  let s := pyReplace s (S "\"") (S "&quot;")
  pyReplace s (S "'") (S "&apos;")

/-- `_escape_xml_chars` on an arbitrary value (line 218 stringifies
non-string input first). -/
def escapeVal (v : Value) : Str := escapeXmlChars (pyToStr v)

/-- One piece of a template string: literal text or a named placeholder
of Python `str.format`. -/
inductive Piece where
  | lit (s : Str)
  | hole (key : Str)

/-- A template is a sequence of pieces. -/
abbrev Template := List Piece

/-- Keyword-argument lookup of `str.format` (modeled templates only name
keys the formatters supply). -/
def lookupBinding : List (Str × Str) → Str → Str
  | [], _ => []
  | (k, v) :: rest, key => if k = key then v else lookupBinding rest key

/-- Python `template.format(**bindings)`. -/
def renderTemplate : Template → List (Str × Str) → Str
  | [], _ => []
  | .lit s :: rest, b => s ++ renderTemplate rest b
  | .hole k :: rest, b => lookupBinding b k ++ renderTemplate rest b

/-- How many times a template names a given placeholder. -/
def countHoles (t : Template) (key : Str) : Nat :=
  (t.filter fun p => match p with | .hole k => k = key | _ => false).length

/-- Modelled from the spec: the True/False template file
`templates/question_types/tf.xml` is loaded from disk (lines 36-65) and is
not part of src/.  Per §4.4/§6 it is a QTI `assessmentItem` whose named
placeholders match `_format_tf`'s substitution keys, with a single
correct-response value. -/
def tfTemplate : Template :=
  [.lit (S "<assessmentItem identifier=\""), .hole (S "identifier"),
   .lit (S "\" title=\""), .hole (S "title"),
   .lit (S "\" adaptive=\"false\" timeDependent=\"false\"><responseDeclaration identifier=\"RESPONSE\" cardinality=\"single\" baseType=\"identifier\"><correctResponse><value>"),
   .hole (S "correct_answer"),
   .lit (S "</value></correctResponse></responseDeclaration><itemBody><p>"),
   .hole (S "prompt"),
   .lit (S "</p></itemBody></assessmentItem>")]

/-- Modelled from the spec: `templates/question_types/mcq.xml` (not part
of src/) — placeholders match `_format_mcq`'s substitution keys; the
correct-response value appears exactly once. -/
def mcqTemplate : Template :=
  [.lit (S "<assessmentItem identifier=\""), .hole (S "identifier"),
   .lit (S "\" title=\""), .hole (S "title"),
   .lit (S "\"><responseDeclaration identifier=\"RESPONSE\" cardinality=\"single\" baseType=\"identifier\"><correctResponse><value>"),
   .hole (S "correct_answer"),
   .lit (S "</value></correctResponse></responseDeclaration><itemBody>"),
   .hole (S "question_text"), .hole (S "question_image"),
   .lit (S "<choiceInteraction responseIdentifier=\"RESPONSE\" shuffle=\"false\" maxChoices=\"1\"><prompt>"),
   .hole (S "prompt"),
   .lit (S "</prompt><simpleChoice identifier=\"A\">"), .hole (S "choice_a"),
   .lit (S "</simpleChoice><simpleChoice identifier=\"B\">"), .hole (S "choice_b"),
   .lit (S "</simpleChoice><simpleChoice identifier=\"C\">"), .hole (S "choice_c"),
   .lit (S "</simpleChoice><simpleChoice identifier=\"D\">"), .hole (S "choice_d"),
   .lit (S "</simpleChoice></choiceInteraction></itemBody></assessmentItem>")]

/-- Modelled from the spec: `templates/question_types/mrq.xml` (not part
of src/). -/
def mrqTemplate : Template :=
  [.lit (S "<assessmentItem identifier=\""), .hole (S "identifier"),
   .lit (S "\" title=\""), .hole (S "title"),
   .lit (S "\"><responseDeclaration identifier=\"RESPONSE\" cardinality=\"multiple\" baseType=\"identifier\"><correctResponse>"),
   .hole (S "correct_answers"),
   .lit (S "</correctResponse></responseDeclaration><itemBody><choiceInteraction responseIdentifier=\"RESPONSE\" shuffle=\""),
   .hole (S "shuffle"), .lit (S "\" maxChoices=\""), .hole (S "max_choices"),
   .lit (S "\"><prompt>"), .hole (S "prompt"),
   .lit (S "</prompt><simpleChoice identifier=\"A\">"), .hole (S "choice_a"),
   .lit (S "</simpleChoice><simpleChoice identifier=\"B\">"), .hole (S "choice_b"),
   .lit (S "</simpleChoice><simpleChoice identifier=\"C\">"), .hole (S "choice_c"),
   .lit (S "</simpleChoice><simpleChoice identifier=\"D\">"), .hole (S "choice_d"),
   .lit (S "</simpleChoice></choiceInteraction></itemBody></assessmentItem>")]

/-- Modelled from the spec: `templates/question_types/fib.xml` (not part
of src/). -/
def fibTemplate : Template :=
  [.lit (S "<assessmentItem identifier=\""), .hole (S "identifier"),
   .lit (S "\" title=\""), .hole (S "title"),
   .lit (S "\" adaptive=\""), .hole (S "adaptive"),
   .lit (S "\" timeDependent=\""), .hole (S "timeDependent"),
   .lit (S "\">"), .hole (S "response_declarations"),
   .lit (S "<itemBody><p>"), .hole (S "prompt_with_interactions"),
   .lit (S "</p></itemBody></assessmentItem>")]

/-- Modelled from the spec: `templates/question_types/match.xml` (not part
of src/). -/
def matchTemplate : Template :=
  [.lit (S "<assessmentItem identifier=\""), .hole (S "identifier"),
   .lit (S "\" title=\""), .hole (S "title"),
   .lit (S "\"><responseDeclaration identifier=\"RESPONSE\" cardinality=\"multiple\" baseType=\"directedPair\"><correctResponse>"),
   .hole (S "correct_pairs"),
   .lit (S "</correctResponse></responseDeclaration><itemBody><matchInteraction responseIdentifier=\"RESPONSE\" shuffle=\""),
   .hole (S "shuffle"), .lit (S "\" maxAssociations=\""), .hole (S "max_associations"),
   .lit (S "\"><prompt>"), .hole (S "prompt"),
   .lit (S "</prompt><simpleMatchSet>"), .hole (S "source_choices"),
   .lit (S "</simpleMatchSet><simpleMatchSet>"), .hole (S "target_choices"),
   .lit (S "</simpleMatchSet></matchInteraction></itemBody></assessmentItem>")]

/-- Modelled from the spec: `templates/question_types/order.xml` (not part
of src/). -/
def orderTemplate : Template :=
  [.lit (S "<assessmentItem identifier=\""), .hole (S "identifier"),
   .lit (S "\" title=\""), .hole (S "title"),
   .lit (S "\"><responseDeclaration identifier=\"RESPONSE\" cardinality=\"ordered\" baseType=\"identifier\"><correctResponse>"),
   .hole (S "correct_sequence"),
   .lit (S "</correctResponse></responseDeclaration><itemBody><orderInteraction responseIdentifier=\"RESPONSE\" shuffle=\""),
   .hole (S "shuffle"),
   .lit (S "\"><prompt>"), .hole (S "prompt"),
   .lit (S "</prompt>"), .hole (S "choices"),
   .lit (S "</orderInteraction></itemBody></assessmentItem>")]

/-- Modelled from the spec: `templates/question_types/essay.xml` (not part
of src/). -/
def essayTemplate : Template :=
  [.lit (S "<assessmentItem identifier=\""), .hole (S "identifier"),
   .lit (S "\" title=\""), .hole (S "title"),
   .lit (S "\"><itemBody><p>"), .hole (S "prompt"),
   .lit (S "</p><extendedTextInteraction responseIdentifier=\"RESPONSE\" expectedLines=\""),
   .hole (S "expected_lines"), .lit (S "\""), .hole (S "format_attr"),
   .lit (S "/></itemBody></assessmentItem>")]

/-- Python `d[key]` raising `KeyError` when absent. -/
def expectKey (d : Dict) (key : Str) : Except Str Value :=
  match dget d key with
  | some v => .ok v
  | none => .error ('\'' :: key ++ ['\''])

/-- Iterating / taking `len` of a value that must be a list (the source
raises `TypeError` otherwise). -/
def expectList : Value → Except Str (List Value)
  | .vlist xs => .ok xs
  | _ => .error (S "object is not iterable")

/-- A value that must be a dict (the source raises otherwise). -/
def expectDictV : Value → Except Str Dict
  | .vdict d => .ok d
  | _ => .error (S "object is not a dict")

/-- A value fed to a `str`-only operation such as `re.finditer` or `in`
(the source raises `TypeError` on non-strings). -/
def asPyStr : Value → Except Str Str
  | .vstr s => .ok s
  | _ => .error (S "expected string")

/-- Python `sep.join(parts)`. -/
def joinSep (sep : Str) : List Str → Str
  | [] => []
  | [x] => x
  | x :: xs => x ++ sep ++ joinSep sep xs

/-- Sequential traversal of a list under `Except`, as a Python list
comprehension evaluates: stop at the first raised error. -/
def mapE (f : α → Except Str β) : List α → Except Str (List β)
  | [] => .ok []
  | a :: as => do
      let b ← f a
      let bs ← mapE f as
      pure (b :: bs)

/-- Lines 1470-1475: `re.search(r'src=["\'](.*?)["\']', img_html)` — the
first `src=` followed by a quote character with a later closing quote
character (of either kind, per the character class).  The regex `.` does
not cross newlines; the fragments fed to it are single-line by
construction. -/
def imgSrcFrom : Str → Option Str
  | [] => none
  | s@(_ :: rest) =>
      let attempt : Option Str :=
        if (S "src=").isPrefixOf s then
          match s.drop 4 with
          | q :: body =>
              if isQuoteChar q && body.any isQuoteChar then
                some (body.takeWhile fun c => !isQuoteChar c)
              else none
          | [] => none
        else none
      match attempt with
      | some r => some r
      | none => imgSrcFrom rest

/-- Lines 1466-1478: the optional `question_image` fragment of an MCQ. -/
def mcqQuestionImage (q : Dict) : Str :=
  if hasKey q (S "question_image") && truthyOpt (dget q (S "question_image")) then
    match imgSrcFrom (pyToStr (dgetD q (S "question_image") (.vstr []))) with
    | some src => S "<p><img src=\"" ++ src ++ S "\" alt=\"Question Image\" width=\"400\"/></p>"
    | none => []
  else []

/-- Last-wins string lookup in the `choice_map` dict comprehension (a
later duplicate identifier overwrites an earlier one; a string key only
ever equals a string). -/
def lookupLastStrKey (entries : List (Value × Str)) (key : Str) : Str :=
  entries.foldl
    (fun acc p => match p.1 with | .vstr s => if s = key then p.2 else acc | _ => acc) []

/-- Lines 1453-1461: the designated correct answer of an MCQ — first
choice whose `correct` is truthy; the literal `"A"` when none is found or
the found identifier is missing/falsy. -/
def mcqCorrectAnswer (cs : List Dict) : Str :=
  let ca : Option Value :=
    match cs.find? (fun c => truthyOpt (dget c (S "correct"))) with
    | some c => dget c (S "identifier")
    | none => none
  match ca with
  | some v => if pyTruthy v then pyToStr v else S "A"
  | none => S "A"

/-- The keyword bindings `_format_mcq` passes to `template.format`
(lines 1481-1496). -/
def mcqBindings (q : Dict) (entries : List (Value × Str)) (correctAnswer : Str) : List (Str × Str) :=
  [(S "identifier", pyToStr (dgetD q (S "identifier") (.vstr []))),
   (S "title", escapeVal (dgetD q (S "title") (.vstr []))),
   (S "question_text", escapeVal (dgetD q (S "question_text") (.vstr []))),
   (S "question_image", mcqQuestionImage q),
   (S "prompt", escapeVal (dgetD q (S "prompt") (.vstr []))),
   (S "correct_answer", correctAnswer),
   (S "choice_a", lookupLastStrKey entries (S "A")),
   (S "choice_b", lookupLastStrKey entries (S "B")),
   (S "choice_c", lookupLastStrKey entries (S "C")),
   (S "choice_d", lookupLastStrKey entries (S "D")),
   (S "choice_a_image", []), (S "choice_b_image", []),
   (S "choice_c_image", []), (S "choice_d_image", [])]

/-- Lines 1447-1498: `_format_mcq`.  Only this formatter passes free text
through `_escape_xml_chars`. -/
def formatMcq (q : Dict) : Except Str Str := do
  let choicesVals ← expectList (dgetD q (S "choices") (.vlist []))
  let cs ← mapE expectDictV choicesVals
  -- line 1450: `{choice['identifier']: escape(choice.get('text', ''))}`
  let entries ← mapE (fun c => do
    let idv ← expectKey c (S "identifier")
    pure (idv, escapeVal (dgetD c (S "text") (.vstr [])))) cs
  pure (renderTemplate mcqTemplate (mcqBindings q entries (mcqCorrectAnswer cs)))

/-- The keyword bindings of `_format_tf` (lines 1646-1651): no escaping
on any field. -/
def tfBindings (idv tv pv cv : Value) : List (Str × Str) :=
  [(S "identifier", pyToStr idv),
   (S "title", pyToStr tv),
   (S "prompt", pyToStr pv),
   (S "correct_answer", pyLower (pyToStr cv))]

/-- Lines 1644-1651: `_format_tf`. -/
def formatTf (q : Dict) : Except Str Str := do
  let idv ← expectKey q (S "identifier")
  let tv ← expectKey q (S "title")
  let pv ← expectKey q (S "prompt")
  let cv ← expectKey q (S "correct")
  pure (renderTemplate tfTemplate (tfBindings idv tv pv cv))

/-- Lines 1422-1445: `_format_mrq` (no escaping on any field). -/
def formatMrq (q : Dict) : Except Str Str := do
  let choicesVals ← expectList (← expectKey q (S "choices"))
  let cs ← mapE expectDictV choicesVals
  let entries ← mapE (fun c => do
    let idv ← expectKey c (S "identifier")
    let tv ← expectKey c (S "text")
    pure (idv, pyToStr tv)) cs
  let correctVals ← mapE (fun c => do
    let idv ← expectKey c (S "identifier")
    pure (S "<value>" ++ pyToStr idv ++ S "</value>")) (cs.filter fun c => truthyOpt (dget c (S "correct")))
  let correctAnswers := joinSep (S "\n            ") correctVals
  let b : List (Str × Str) :=
    [(S "identifier", pyToStr (dgetD q (S "identifier") (.vstr []))),
     (S "title", pyToStr (dgetD q (S "title") (.vstr []))),
     (S "prompt", pyToStr (dgetD q (S "prompt") (.vstr []))),
     (S "correct_answers", correctAnswers),
     (S "choice_a", lookupLastStrKey entries (S "A")),
     (S "choice_b", lookupLastStrKey entries (S "B")),
     (S "choice_c", lookupLastStrKey entries (S "C")),
     (S "choice_d", lookupLastStrKey entries (S "D")),
     (S "shuffle", pyLower (pyToStr (dgetD q (S "shuffle") (.vbool true)))),
     (S "max_choices", pyToStr (dgetD q (S "maxChoices") (.vint 0)))]
  -- lines 1435-1437 access these keys directly; a missing one raises
  let _ ← expectKey q (S "identifier")
  let _ ← expectKey q (S "title")
  let _ ← expectKey q (S "prompt")
  pure (renderTemplate mrqTemplate b)

/-- One `<simpleAssociableChoice>` line of `_format_match`
(lines 1656-1667); `text` is inserted unescaped. -/
def matchChoiceXml (c : Dict) : Except Str Str := do
  let idv ← expectKey c (S "identifier")
  let tv ← expectKey c (S "text")
  pure (S "<simpleAssociableChoice identifier=\"" ++ pyToStr idv ++
        S "\" matchMax=\"" ++ pyToStr (dgetD c (S "matchMax") (.vint 1)) ++
        S "\">" ++ pyToStr tv ++ S "</simpleAssociableChoice>")

/-- Lines 1653-1684: `_format_match` (no escaping on any field). -/
def formatMatch (q : Dict) : Except Str Str := do
  let ms ← expectDictV (← expectKey q (S "matchSets"))
  let src ← mapE expectDictV (← expectList (← expectKey ms (S "source")))
  let tgt ← mapE expectDictV (← expectList (← expectKey ms (S "target")))
  let sourceChoices := joinSep (S "\n            ") (← mapE matchChoiceXml src)
  let targetChoices := joinSep (S "\n            ") (← mapE matchChoiceXml tgt)
  let pairVals ← mapE (fun p => do
    match ← expectList p with
    | a :: b :: _ => pure (S "<value>" ++ pyToStr a ++ S " " ++ pyToStr b ++ S "</value>")
    | _ => .error (S "list index out of range")) (← expectList (← expectKey q (S "correctPairs")))
  let correctPairs := joinSep (S "\n            ") pairVals
  let idv ← expectKey q (S "identifier")
  let tv ← expectKey q (S "title")
  let pv ← expectKey q (S "prompt")
  let b : List (Str × Str) :=
    [(S "identifier", pyToStr idv), (S "title", pyToStr tv), (S "prompt", pyToStr pv),
     (S "source_choices", sourceChoices), (S "target_choices", targetChoices),
     (S "correct_pairs", correctPairs),
     (S "shuffle", pyLower (pyToStr (dgetD q (S "shuffle") (.vbool true)))),
     (S "max_associations", pyToStr (dgetD q (S "maxAssociations") (.vint 0)))]
  pure (renderTemplate matchTemplate b)

/-- Lines 1686-1710: `_format_order` (no escaping; errors are rewrapped
with the prefix at line 1710). -/
def formatOrder (q : Dict) : Except Str Str :=
  let res : Except Str Str := do
    let cs ← mapE expectDictV (← expectList (← expectKey q (S "choices")))
    let choiceXmls ← mapE (fun c => do
      let idv ← expectKey c (S "identifier")
      let tv ← expectKey c (S "text")
      pure (S "<simpleChoice identifier=\"" ++ pyToStr idv ++ S "\">" ++ pyToStr tv ++ S "</simpleChoice>")) cs
    let seq ← expectList (← expectKey q (S "correctSequence"))
    let b : List (Str × Str) :=
      [(S "identifier", pyToStr (← expectKey q (S "identifier"))),
       (S "title", pyToStr (← expectKey q (S "title"))),
       (S "prompt", pyToStr (← expectKey q (S "prompt"))),
       (S "choices", joinSep (S "\n            ") choiceXmls),
       (S "correct_sequence",
         joinSep (S "\n            ") (seq.map fun v => S "<value>" ++ pyToStr v ++ S "</value>")),
       (S "shuffle", pyLower (pyToStr (dgetD q (S "shuffle") (.vbool true))))]
    pure (renderTemplate orderTemplate b)
  match res with
  | .ok x => .ok x
  | .error m => .error (S "Error formatting order question: " ++ m)

/-- Lines 1712-1725: `_format_essay` (no escaping). -/
def formatEssay (q : Dict) : Except Str Str := do
  let formatAttr : Str :=
    if hasKey q (S "responseFormat") then
      S " format=\"" ++ pyToStr (dgetD q (S "responseFormat") (.vstr [])) ++ S "\""
    else []
  let el ← expectKey q (S "expectedLines")
  let b : List (Str × Str) :=
    [(S "identifier", pyToStr (← expectKey q (S "identifier"))),
     (S "title", pyToStr (← expectKey q (S "title"))),
     (S "prompt", pyToStr (← expectKey q (S "prompt"))),
     (S "expected_lines", pyToStr el),
     (S "format_attr", formatAttr)]
  pure (renderTemplate essayTemplate b)

/-- Lines 1573-1583: positions of standalone underscores in the prompt —
an `_` whose neighbours (when they exist) are not alphanumeric. -/
def underscorePosGo (prev : Option Char) (i : Nat) : Str → List Nat
  | [] => []
  | c :: rest =>
      let leftOk := match prev with | none => true | some pc => !pyIsAlnum pc
      let rightOk := match rest with | [] => true | nc :: _ => !pyIsAlnum nc
      (if c = '_' && leftOk && rightOk then [i] else []) ++ underscorePosGo (some c) (i + 1) rest

/-- The standalone-underscore blank positions of `_format_fib`. -/
def fibBlankPositions (prompt : Str) : List Nat := underscorePosGo none 0 prompt

/-- Line 1592: every position of a literal `*`. -/
def asteriskPosGo (i : Nat) : Str → List Nat
  | [] => []
  | c :: rest => (if c = '*' then [i] else []) ++ asteriskPosGo (i + 1) rest

/-- Lines 1599-1610: one `<responseDeclaration>` per answer group, with
each answer inserted by an f-string with no escaping. -/
def fibRespDecl (i : Nat) (answers : List Value) : Str :=
  S "<responseDeclaration identifier=\"RESPONSE" ++ natToStr i ++
  S "\" cardinality=\"single\" baseType=\"string\">\n            <correctResponse>\n        " ++
  (answers.map fun a => S "        <value>" ++ pyToStr a ++ S "</value>\n").flatten ++
  S "    </correctResponse>\n        </responseDeclaration>"

/-- `enumerate(correct_answers, 1)` over the answer groups; each group
must itself be a list. -/
def fibRespDecls : Nat → List Value → Except Str (List Str)
  | _, [] => .ok []
  | i, a :: rest => do
      let answers ← expectList a
      let ds ← fibRespDecls (i + 1) rest
      pure (fibRespDecl i answers :: ds)

/-- Line 1622: the spliced-in interaction element for blank `i`. -/
def fibInteraction (i : Nat) (expLen : Str) : Str :=
  S "<textEntryInteraction responseIdentifier=\"RESPONSE" ++ natToStr i ++
  S "\" expectedLength=\"" ++ expLen ++ S "\"/>"

/-- Lines 1616-1630: rebuild the prompt around the blank positions. -/
def fibSpliceGo (prompt : Str) (expLen : Str) : Nat → Nat → List Nat → Str
  | prev, _, [] => prompt.drop prev
  | prev, i, pos :: rest =>
      (prompt.drop prev).take (pos - prev) ++ fibInteraction i expLen ++
      fibSpliceGo prompt expLen (pos + 1) (i + 1) rest

/-- The prompt with interactions spliced in place of each blank. -/
def fibSplice (prompt : Str) (positions : List Nat) (expLen : Str) : Str :=
  fibSpliceGo prompt expLen 0 1 positions

/-- The blank-count mismatch message of `_format_fib`
(lines 1586 and 1595). -/
def fibMismatchMsg (blanks answers : Nat) : Str :=
  S "Number of blanks (" ++ natToStr blanks ++
  S ") does not match number of answer sets (" ++ natToStr answers ++ S ")"

/-- Lines 1546-1642: `_format_fib`.  The identifier default appends eight
random hex digits in the source (external randomness, not modelled); no
field is escaped. -/
def formatFib (q : Dict) : Except Str Str := do
  let identifier := pyToStr (dgetD q (S "identifier") (.vstr (S "fib_")))
  let title := pyToStr (dgetD q (S "title") (.vstr (S "Fill in the Blank Question")))
  let prompt ← asPyStr (dgetD q (S "prompt") (.vstr []))
  let cas ← expectList (dgetD q (S "correctAnswers") (.vlist []))
  let expLen := pyToStr (dgetD q (S "expectedLength") (.vint 20))
  let bp := fibBlankPositions prompt
  if bp.length ≠ cas.length then
    .error (fibMismatchMsg bp.length cas.length)
  else do
    -- lines 1590-1595: asterisk fallback when no underscore blank exists
    let bp := if bp.isEmpty then asteriskPosGo 0 prompt else bp
    if bp.length ≠ cas.length then
      .error (fibMismatchMsg bp.length cas.length)
    else do
      let ds ← fibRespDecls 1 cas
      let b : List (Str × Str) :=
        [(S "identifier", identifier), (S "title", title),
         (S "adaptive", S "false"), (S "timeDependent", S "false"),
         (S "response_declarations", joinSep (S "\n") ds),
         (S "prompt_with_interactions", fibSplice prompt bp expLen)]
      pure (renderTemplate fibTemplate b)

/-- Lines 1387-1420: `_format_question` — dispatch on the template type,
wrapping any failure with the question identifier. -/
def formatQuestion (q : Dict) (qtype : Str) : Except Str Str :=
  let res : Except Str Str :=
    if qtype = S "fib" then formatFib q
    else if qtype = S "mcq" then formatMcq q
    else if qtype = S "mrq" then formatMrq q
    else if qtype = S "tf" then formatTf q
    else if qtype = S "match" then formatMatch q
    else if qtype = S "order" then formatOrder q
    else if qtype = S "essay" then formatEssay q
    else .error (S "Formatting not implemented for type: " ++ qtype)
  match res with
  | .ok x => .ok x
  | .error m =>
      .error (S "Error formatting question " ++
        pyToStr (dgetD q (S "identifier") (.vstr (S "unknown"))) ++
        S " of type " ++ qtype ++ S ": " ++ m)

/-- Lines 39-52: the question types for which a template file is
registered. -/
def templateTypes : List Str :=
  [S "fib", S "mcq", S "mrq", S "tf", S "match", S "order", S "essay"]

/-- Does the text after a `&` begin one of the five named XML entity
references the converter's escaper can produce? -/
def ampRefOk (rest : Str) : Bool :=
  [S "amp;", S "lt;", S "gt;", S "quot;", S "apos;"].any fun p => p.isPrefixOf rest

/-- No bare ampersand: every `&` in the text begins a named entity
reference.  A text failing this is not well-formed XML, and
`xml.dom.minidom.parseString` raises `ExpatError` on it. -/
def bareAmpFree : Str → Bool
  | [] => true
  | c :: rest => (if c = '&' then ampRefOk rest else true) && bareAmpFree rest

/-- Contains none of the five XML special characters. -/
def noSpecials (s : Str) : Bool :=
  s.all fun c => !(c = '&' || c = '<' || c = '>' || c = '"' || c = '\'')

/-- Lines 2479-2483: `_prettify` parses the XML text with
`xml.dom.minidom.parseString` and re-serializes it indented.  The parse
raises `ExpatError` on non-well-formed text; in this converter that is
reached through unescaped substitutions, whose characteristic symptom is
a bare `&` (one not beginning an entity reference), which the model
rejects.  On acceptance the reflow is abstracted as the identity on the
text: minidom's reindentation reformats whitespace of the same content.
Numeric character references (treated as bare here) and other expat
failure modes (such as a stray `<` injected by an unescaped field) are
not modelled; no theorem concludes success for an input exercising
them. -/
def prettify (s : Str) : Except Str Str :=
  if bareAmpFree s then .ok s
  else .error (S "not well-formed (invalid token)")

/-- Lines 278-290: the body of `convert`'s per-question loop — type
check, template lookup, formatting, prettifying (all inside the
per-question `try`). -/
def processQuestion (q : Dict) : Except Str Str :=
  let o := dget q (S "type")
  if !truthyOpt o then .error (S "Question missing type field")
  else
    match o with
    | some (.vstr t) =>
        if templateTypes.contains t then do
          let xml ← formatQuestion q t
          prettify xml
        else .error (S "Template not found for type: " ++ t)
    | some v => .error (S "Template not found for type: " ++ pyToStr v)
    | none => .error (S "Question missing type field")

/-- Line 293: the per-question error record surfaced to the UI. -/
def convertErrMsg (q : Dict) (e : Str) : Str :=
  S "Error converting question " ++
  pyToStr (dgetD q (S "identifier") (.vstr (S "unknown"))) ++ S ": " ++ e

/-- One iteration of `convert`'s loop: append the XML on success, record
the error and continue on failure (lines 278-294). -/
def convertStep (acc : List Str × List Str) (q : Dict) : List Str × List Str :=
  match processQuestion q with
  | .ok xml => (acc.1 ++ [xml], acc.2)
  | .error e => (acc.1, acc.2 ++ [convertErrMsg q e])

/-- The loop of `convert` over the parsed questions. -/
def convertQuestions (qs : List Dict) : List Str × List Str :=
  qs.foldl convertStep ([], [])

/-- Lines 271-299: `convert` — parse, then process each question,
isolating failures.  The source returns the XML list and reports each
error through the UI (`st.error`); the model returns both lists. -/
def convert (s : Str) : List Str × List Str :=
  convertQuestions (customYamlParse s)

/-!
## The validators

`convert` never calls these (no call to `validate_question` exists on the
conversion path); they are embedded for the claims that quantify over
validated questions.
-/

/-- Python `type(v)` as it renders inside an f-string. -/
def pyTypeName : Value → Str
  | .vstr _ => S "<class 'str'>"
  | .vbool _ => S "<class 'bool'>"
  | .vint _ => S "<class 'int'>"
  | .vlist _ => S "<class 'list'>"
  | .vdict _ => S "<class 'dict'>"

/-- Is the value a Python `str`? -/
def isStrV : Value → Bool
  | .vstr _ => true
  | _ => false

/-- Is the value a Python `bool`? -/
def isBoolV : Value → Bool
  | .vbool _ => true
  | _ => false

/-- Modelled from the spec: `templates/metadata.yaml` (not part of src/)
configures at least 4 choices for mcq/mrq (§4.3). -/
def minChoices : Nat := 4

/-- Modelled from the spec: the configured choice contract — each choice
has `identifier` and `text` (strings) and `correct` (boolean) (§3, §4.3). -/
def choiceFieldRules : List (Str × (Value → Bool) × Str) :=
  [(S "identifier", isStrV, S "string"),
   (S "text", isStrV, S "string"),
   (S "correct", isBoolV, S "boolean")]

/-- Lines 1786-1811: the per-choice field checks of `_validate_choices`. -/
def checkChoiceFields (qid : Str) (c : Dict) : List (Str × (Value → Bool) × Str) → Except Str Unit
  | [] =>
      -- line 1808: an `image` field, when present, must be a string
      if hasKey c (S "image") && !isStrV (dgetD c (S "image") (.vstr [])) then
        .error (S "Question " ++ qid ++ S ": Choice image must be a string (HTML) or null")
      else .ok ()
  | (f, ok, tname) :: rest =>
      match dget c f with
      | none => .error (S "Question " ++ qid ++ S ": Choice missing required field: " ++ f)
      | some v =>
          if !ok v then
            .error (S "Question " ++ qid ++ S ": Choice field " ++ f ++ S " must be " ++
                    tname ++ S ", got " ++ pyTypeName v)
          else checkChoiceFields qid c rest

/-- The choice list traversal of `_validate_choices`. -/
def checkChoicesList (qid : Str) : List Value → Except Str Unit
  | [] => .ok ()
  | v :: rest => do
      let c ← expectDictV v
      checkChoiceFields qid c choiceFieldRules
      checkChoicesList qid rest

/-- Lines 1769-1834: `_validate_choices`.  The error messages read the
identifier lazily (a missing identifier would raise `KeyError` at the
same sites in the source). -/
def validateChoices (q : Dict) (qtype : Str) : Except Str Unit :=
  let qid := pyToStr (dgetD q (S "identifier") (.vstr (S "?")))
  if !hasKey q (S "choices") then
    .error (S "Question " ++ qid ++ S ": Missing choices")
  else do
    let cs ← expectList (dgetD q (S "choices") (.vlist []))
    if cs.length < minChoices then
      .error (S "Question " ++ qid ++ S ": Must have at least " ++ natToStr minChoices ++
              S " choices, got " ++ natToStr cs.length)
    else do
      checkChoicesList qid cs
      let ds ← mapE expectDictV cs
      if qtype = S "mcq" then
        let cnt := (ds.filter fun c => truthyOpt (dget c (S "correct"))).length
        if cnt ≠ 1 then
          .error (S "MCQ " ++ qid ++ S ": Must have exactly one correct answer, got " ++
                  natToStr cnt)
        else if hasKey q (S "question_image") &&
            !isStrV (dgetD q (S "question_image") (.vstr [])) then
          .error (S "Question " ++ qid ++ S ": question_image must be a string (HTML)")
        else .ok ()
      else if qtype = S "mrq" then
        if !(ds.any fun c => truthyOpt (dget c (S "correct"))) then
          .error (S "MRQ " ++ qid ++ S ": Must have at least one correct answer")
        else if hasKey q (S "question_image") &&
            !isStrV (dgetD q (S "question_image") (.vstr [])) then
          .error (S "Question " ++ qid ++ S ": question_image must be a string (HTML)")
        else .ok ()
      else if hasKey q (S "question_image") &&
          !isStrV (dgetD q (S "question_image") (.vstr [])) then
        .error (S "Question " ++ qid ++ S ": question_image must be a string (HTML)")
      else .ok ()

/-- Line 1906: `len(re.findall(r'_+', prompt))` — the number of maximal
runs of underscores. -/
def countUnderscoreRunsGo : Str → Bool → Nat
  | [], _ => 0
  | c :: rest, inRun =>
      if c = '_' then (if inRun then 0 else 1) + countUnderscoreRunsGo rest true
      else countUnderscoreRunsGo rest false

/-- The validator's blank count: consecutive underscores count as one. -/
def countUnderscoreRuns (s : Str) : Nat := countUnderscoreRunsGo s false

/-- The count-mismatch error of `_validate_fib` (lines 1915-1918), naming
the identifier, the answer-set count and the blank count. -/
def fibValMismatchMsg (qid : Str) (answers blanks : Nat) : Str :=
  S "FIB question " ++ qid ++ S ": Number of answer sets (" ++ natToStr answers ++
  S ") must match number of blanks (" ++ natToStr blanks ++ S ")"

/-- Lines 1926-1931: each answer must be `-`/`---` or convertible to a
string (`bool` is an `int` subclass in Python, so booleans pass). -/
def checkFibAnswers (qid : Str) : List Value → Except Str Unit
  | [] => .ok ()
  | a :: rest =>
      let dash := match a with | .vstr s => s = S "-" || s = S "---" | _ => false
      if dash then checkFibAnswers qid rest
      else
        match a with
        | .vlist _ | .vdict _ =>
            .error (S "FIB question " ++ qid ++ S ": All answers must be convertible to strings")
        | _ => checkFibAnswers qid rest

/-- Lines 1921-1931: each answer set must be a non-empty list. -/
def checkFibSets (qid : Str) : Nat → List Value → Except Str Unit
  | _, [] => .ok ()
  | i, a :: rest =>
      match a with
      | .vlist xs =>
          if xs.isEmpty then
            .error (S "FIB question " ++ qid ++ S ": Answer set " ++ natToStr i ++
                    S " must be non-empty array")
          else do
            checkFibAnswers qid xs
            checkFibSets qid (i + 1) rest
      | _ =>
          .error (S "FIB question " ++ qid ++ S ": Answer set " ++ natToStr i ++
                  S " must be non-empty array")

/-- Modelled from the spec: the configured `expectedLength` bounds for
FIB, `[1, 500]` (§4.3). -/
def fibLenMin : Int := 1

/-- Modelled from the spec: the upper `expectedLength` bound for FIB. -/
def fibLenMax : Int := 500

/-- Lines 1896-1953: `_validate_fib`.  Note that the `try` at lines
1943-1950 catches the range-violation `ValueError` it itself raises, so an
out-of-range `expectedLength` is reported with the "must be an integer"
message.  The in-place `---` → `-` normalization (lines 1933-1938) mutates
the question and is not modelled (no claim depends on it). -/
def validateFib (q : Dict) : Except Str Unit := do
  let qid := pyToStr (dgetD q (S "identifier") (.vstr (S "?")))
  -- line 1901: `'_' not in question['prompt']`
  let prompt ← asPyStr (← expectKey q (S "prompt"))
  if !containsSub prompt [ '_' ] then
    .error (S "FIB question " ++ qid ++ S ": Prompt must contain blank(s) marked with _")
  else do
    let numBlanks := countUnderscoreRuns prompt
    if !hasKey q (S "correctAnswers") then
      .error (S "FIB question " ++ qid ++ S ": Missing correctAnswers")
    else do
      let answers := dgetD q (S "correctAnswers") (.vlist [])
      let isList := match answers with | .vlist _ => true | _ => false
      let alen := match answers with | .vlist xs => xs.length | _ => 0
      if !isList || alen ≠ numBlanks then
        .error (fibValMismatchMsg qid alen numBlanks)
      else do
        let sets := match answers with | .vlist xs => xs | _ => []
        checkFibSets qid 1 sets
        if hasKey q (S "expectedLength") then
          match pyIntOfValue (dgetD q (S "expectedLength") (.vint 0)) with
          | some n =>
              if fibLenMin ≤ n ∧ n ≤ fibLenMax then .ok ()
              else .error (S "FIB question " ++ qid ++ S ": expectedLength must be an integer")
          | none => .error (S "FIB question " ++ qid ++ S ": expectedLength must be an integer")
        else .ok ()

/-!
## Specification-side definitions used by the theorems
-/

/-- The per-character expansion the escaper is proved to implement: each
of the five special characters becomes its entity, all others stay. -/
def escChar (c : Char) : Str :=
  if c = '&' then S "&amp;"
  else if c = '<' then S "&lt;"
  else if c = '>' then S "&gt;"
  else if c = '"' then S "&quot;"
  else if c = '\'' then S "&apos;"
  else [c]

/-- Character-wise expansion of a string. -/
def expandChars (f : Char → Str) : Str → Str
  | [] => []
  | c :: rest => f c ++ expandChars f rest

/-- Did the per-question pipeline succeed? -/
def isOkE : Except Str Str → Bool
  | .ok _ => true
  | .error _ => false

/-- A FIB field map with the given identifier, prompt and answer groups,
shaped as the parser produces it. -/
def mkFibDict (id p : Str) (groups : List (List Str)) : Dict :=
  [(S "type", .vstr (S "fib")), (S "identifier", .vstr id),
   (S "prompt", .vstr p), (S "correctAnswers", fibGroupsVal groups)]

/-- The choice-map entries `_format_mcq` builds when every choice carries
an `identifier` key (line 1450). -/
def mcqEntries (cs : List Dict) : List (Value × Str) :=
  cs.map fun c =>
    ((dget c (S "identifier")).getD (.vstr []), escapeVal (dgetD c (S "text") (.vstr [])))

/-!
## Concrete inputs used by the claim theorems
-/

/-- A True/False block whose prompt contains a bare `&`. -/
def c1Input : Str :=
  S "- type: tf\n  identifier: Q1\n  title: T\n  prompt: a&b\n  correct: true\n"

/-- The field map the parser produces for `c1Input`. -/
def c1Question : Dict :=
  [(S "type", .vstr (S "tf")), (S "identifier", .vstr (S "Q1")),
   (S "title", .vstr (S "T")), (S "prompt", .vstr (S "a&b")),
   (S "correct", .vbool true)]

/-- What `_format_tf` emits for `c1Question`. -/
def c1Xml : Str :=
  renderTemplate tfTemplate
    (tfBindings (.vstr (S "Q1")) (.vstr (S "T")) (.vstr (S "a&b")) (.vbool true))

/-- A FIB field map whose prompt's only underscore is inside `foo_bar`. -/
def c2FooBarQ : Dict :=
  [(S "type", .vstr (S "fib")), (S "identifier", .vstr (S "Q1")),
   (S "prompt", .vstr (S "foo_bar")),
   (S "correctAnswers", .vlist [.vlist [.vstr (S "x")]])]

/-- An MCQ block whose choice text is a triple-quoted two-line string. -/
def c4Input : Str :=
  S "- type: mcq\n  identifier: Q6\n  choices:\n  - identifier: A\n    text: \"\"\"line1\n      line2\"\"\"\n"

/-- A block whose `prompt` line is `prompt: true`. -/
def c5Input : Str := S "- type: tf\n  prompt: true"

/-- Four well-typed choices, the unique correct one having an empty
identifier. -/
def c6Choices : List Dict :=
  [[(S "identifier", .vstr (S "A")), (S "text", .vstr (S "a")), (S "correct", .vbool false)],
   [(S "identifier", .vstr (S "B")), (S "text", .vstr (S "b")), (S "correct", .vbool false)],
   [(S "identifier", .vstr (S "C")), (S "text", .vstr (S "c")), (S "correct", .vbool false)],
   [(S "identifier", .vstr []), (S "text", .vstr (S "d")), (S "correct", .vbool true)]]

/-- The MCQ field map holding `c6Choices`. -/
def c6Question : Dict :=
  [(S "type", .vstr (S "mcq")), (S "identifier", .vstr (S "M2")),
   (S "title", .vstr (S "T")), (S "prompt", .vstr (S "p")),
   (S "choices", .vlist (c6Choices.map .vdict))]

/-- A match block with one-item source and target sets where the source
item's identifier is empty, and no `correctPairs` key. -/
def c7Input : Str :=
  S "- type: match\n  identifier: Q4\n  matchSets:\n    source:\n    - identifier:\n    target:\n    - identifier: T1\n"

/-- A FIB block whose answer group is written as a `- -` line followed by
an indented alternative. -/
def c8Input : Str :=
  S "- type: fib\n  prompt: _\n  correctAnswers:\n  - - cat\n    - feline"

/-- Three question blocks of which exactly the middle one fails to
convert (its type has no registered template). -/
def c3Input : Str :=
  S "- type: tf\n  identifier: A1\n  title: T1\n  prompt: p1\n  correct: true\n- type: zzz\n  identifier: A2\n- type: tf\n  identifier: A3\n  title: T3\n  prompt: p3\n  correct: false\n"

/-- A whitespace-only input. -/
def c9Input : Str := S "  \n\t \n "

/-- Four well-typed choices with the unique correct one named `C`. -/
def c6GoodChoices : List Dict :=
  [[(S "identifier", .vstr (S "A")), (S "text", .vstr (S "a")), (S "correct", .vbool false)],
   [(S "identifier", .vstr (S "B")), (S "text", .vstr (S "b")), (S "correct", .vbool false)],
   [(S "identifier", .vstr (S "C")), (S "text", .vstr (S "c")), (S "correct", .vbool true)],
   [(S "identifier", .vstr (S "D")), (S "text", .vstr (S "d")), (S "correct", .vbool false)]]

/-- The MCQ field map holding `c6GoodChoices`. -/
def c6GoodQuestion : Dict :=
  [(S "type", .vstr (S "mcq")), (S "identifier", .vstr (S "M1")),
   (S "title", .vstr (S "T")), (S "prompt", .vstr (S "p")),
   (S "choices", .vlist (c6GoodChoices.map .vdict))]

/-- Four well-typed choices, none marked correct. -/
def c10Choices : List Dict :=
  [[(S "identifier", .vstr (S "A")), (S "text", .vstr (S "a")), (S "correct", .vbool false)],
   [(S "identifier", .vstr (S "B")), (S "text", .vstr (S "b")), (S "correct", .vbool false)],
   [(S "identifier", .vstr (S "C")), (S "text", .vstr (S "c")), (S "correct", .vbool false)],
   [(S "identifier", .vstr (S "D")), (S "text", .vstr (S "d")), (S "correct", .vbool false)]]

/-- The MCQ field map holding `c10Choices`. -/
def c10Question : Dict :=
  [(S "type", .vstr (S "mcq")), (S "identifier", .vstr (S "QX")),
   (S "title", .vstr (S "T")), (S "prompt", .vstr (S "pick")),
   (S "choices", .vlist (c10Choices.map .vdict))]

/-- The same no-correct MCQ with an identifier containing a bare `&`. -/
def c10AmpQuestion : Dict :=
  [(S "type", .vstr (S "mcq")), (S "identifier", .vstr (S "a&b")),
   (S "title", .vstr (S "T")), (S "prompt", .vstr (S "pick")),
   (S "choices", .vlist (c10Choices.map .vdict))]

/-- One-item source and target sets with non-empty identifiers. -/
def c7SrcGood : List Dict := [[(S "identifier", .vstr (S "S1"))], [(S "identifier", .vstr (S "S2"))]]

/-- Target items for the C7 witness. -/
def c7TgtGood : List Dict :=
  [[(S "identifier", .vstr (S "T1"))], [(S "identifier", .vstr (S "T2"))],
   [(S "identifier", .vstr (S "T3"))]]

/-- A match field map with `matchSets` and no `correctPairs`. -/
def c7GoodDict : Dict :=
  [(S "type", .vstr (S "match")), (S "identifier", .vstr (S "Q3")),
   (S "matchSets", .vdict
     [(S "source", .vlist (c7SrcGood.map .vdict)),
      (S "target", .vlist (c7TgtGood.map .vdict))])]

/-!
## Refutations and code-bug evaluations
-/

set_option maxRecDepth 100000

/-- C1, counterexample.  The claim says the emitter passes every
free-text field of a True/False question through the escaper, so a `&`
in the prompt should appear only as `&amp;` in the emitted XML.
`_format_tf` (lines 1644-1651) never calls `_escape_xml_chars`: on the
field map the parser produces for `c1Input` it emits XML containing the
raw `a&b` and no `&amp;` anywhere; end to end, `_prettify`'s minidom
parse then rejects that non-well-formed text, so `convert` records one
error and yields no XML at all — in neither place does the character
come out as its entity. -/
theorem c1_counterexample :
    customYamlParse c1Input = [c1Question]
    ∧ formatTf c1Question = .ok c1Xml
    ∧ containsSub c1Xml (S "a&b") = true
    ∧ containsSub c1Xml (S "&amp;") = false
    ∧ (convert c1Input).1 = []
    ∧ (convert c1Input).2.length = 1 :=
  ⟨rfl, rfl, rfl, rfl, rfl, rfl⟩

/-- C2, counterexample.  The claim says the validator counts blanks by the
standalone-underscore scan (so `foo_bar` has no blank) and rejects exactly
when that count differs from the answer-group count.  For the prompt
`foo_bar` with one answer group the standalone count is 0 ≠ 1, so the
claim predicts rejection — but `_validate_fib` accepts, because it counts
maximal underscore runs (line 1906), and `foo_bar` contains one run. -/
theorem c2_counterexample :
    validateFib c2FooBarQ = .ok ()
    ∧ (fibBlankPositions (S "foo_bar")).length = 0
    ∧ countUnderscoreRuns (S "foo_bar") = 1 :=
  ⟨rfl, rfl, rfl⟩

/-- C4: evaluation of the code at the failing input.  A choice `text`
that opens a triple quote closed on the next line parses to just `line1`:
the enclosed text is truncated at the first line and the second line is
dropped, instead of being reproduced verbatim with its newline. -/
theorem c4_triple_quoted_text_truncated :
    (customYamlParse c4Input).map (fun q => dget q (S "choices"))
      = [some (.vlist [.vdict [(S "identifier", .vstr (S "A")),
                               (S "text", .vstr (S "line1"))]])] :=
  rfl

/-- C5, counterexample.  The claim says a block whose prompt line is
`prompt: true` parses to the string `"true"`.  It parses to the boolean
`True`: the top-level coercion (lines 958-962) applies to every field,
including `prompt`. -/
theorem c5_counterexample :
    customYamlParse c5Input = [[(S "type", .vstr (S "tf")), (S "prompt", .vbool true)]] :=
  rfl

/-- C6, counterexample.  `c6Question` passes `_validate_choices` for mcq
(four typed choices, exactly one truthy `correct`), yet the emitted
correct-response value is the fallback literal `A`, not the correct
choice's identifier (the empty string): line 1460's truthiness test
treats the empty identifier as missing. -/
theorem c6_counterexample :
    validateChoices c6Question (S "mcq") = .ok ()
    ∧ (c6Choices.filter fun c => truthyOpt (dget c (S "correct"))).length = 1
    ∧ dget (c6Choices.getLastD []) (S "identifier") = some (.vstr [])
    ∧ truthyOpt (dget (c6Choices.getLastD []) (S "correct")) = true
    ∧ mcqCorrectAnswer c6Choices = S "A"
    ∧ (S "A" : Str) ≠ [] :=
  ⟨rfl, rfl, rfl, rfl, rfl, by decide⟩

/-- C7, counterexample.  The claim says the synthesized pairs number
exactly `min(|source|, |target|)`.  Here both sets have one item, so the
claim demands one pair — but the source identifier is empty (falsy), the
`if source_id and target_id` guard at line 1005 skips it, and zero pairs
are stored. -/
theorem c7_counterexample :
    (customYamlParse c7Input).map (fun q => dget q (S "matchSets"))
      = [some (.vdict
          [(S "source", .vlist [.vdict [(S "identifier", .vstr [])]]),
           (S "target", .vlist [.vdict [(S "identifier", .vstr (S "T1"))]])])]
    ∧ (customYamlParse c7Input).map (fun q => dget q (S "correctPairs"))
        = [some (.vlist [])] :=
  ⟨rfl, rfl⟩

/-- C8: evaluation of the code at the failing input.  The group written as
`- - cat` followed by the indented alternative `- feline` parses to the
single-answer group `["cat"]`: the branch at line 843 tests
`line.strip().startswith('  - ')`, which can never hold after `strip`, so
the alternative is silently dropped instead of being appended. -/
theorem c8_alternative_answer_dropped :
    (customYamlParse c8Input).map (fun q => dget q (S "correctAnswers"))
      = [some (.vlist [.vlist [.vstr (S "cat")]])] :=
  rfl

/-!
## Helper lemmas
-/

theorem expandChars_append (f : Char → Str) (a b : Str) :
    expandChars f (a ++ b) = expandChars f a ++ expandChars f b := by
  induction a with
  | nil => rfl
  | cons c rest ih => simp [expandChars, ih]

theorem expandChars_expand (f g : Char → Str) (s : Str) :
    expandChars f (expandChars g s) = expandChars (fun c => expandChars f (g c)) s := by
  induction s with
  | nil => rfl
  | cons c rest ih => simp [expandChars, expandChars_append, ih]

theorem expandChars_congr (f g : Char → Str) (h : ∀ c, f c = g c) (s : Str) :
    expandChars f s = expandChars g s := by
  induction s with
  | nil => rfl
  | cons c rest ih => simp [expandChars, h c, ih]

theorem pyReplace_singleChar (c : Char) (rep : Str) (s : Str) :
    pyReplace s [c] rep = expandChars (fun x => if x = c then rep else [x]) s := by
  induction s with
  | nil => simp [pyReplace, expandChars]
  | cons x rest ih =>
      by_cases h : x = c
      · subst h
        simp [pyReplace, List.isPrefixOf, expandChars, ih]
      · have hb : (c == x) = false := by
          simp [beq_iff_eq]
          exact fun he => h he.symm
        simp [pyReplace, List.isPrefixOf, hb, expandChars, ih, h]

theorem escapeXmlChars_eq_expand (s : Str) :
    escapeXmlChars s = expandChars escChar s := by
  show pyReplace (pyReplace (pyReplace (pyReplace (pyReplace s ['&'] (S "&amp;"))
        ['<'] (S "&lt;")) ['>'] (S "&gt;")) ['"'] (S "&quot;")) ['\''] (S "&apos;")
      = expandChars escChar s
  rw [pyReplace_singleChar, pyReplace_singleChar, pyReplace_singleChar,
      pyReplace_singleChar, pyReplace_singleChar]
  rw [expandChars_expand, expandChars_expand, expandChars_expand, expandChars_expand]
  refine expandChars_congr _ _ (fun c => ?_) s
  by_cases h1 : c = '&'
  · subst h1; rfl
  · by_cases h2 : c = '<'
    · subst h2; rfl
    · by_cases h3 : c = '>'
      · subst h3; rfl
      · by_cases h4 : c = '"'
        · subst h4; rfl
        · by_cases h5 : c = '\''
          · subst h5; rfl
          · simp [expandChars, escChar, h1, h2, h3, h4, h5]

/-!
## C1 (amended)
-/

/-- C1, amended.  Free text is passed through the XML escaper only by the
MCQ emitter: `_escape_xml_chars` rewrites exactly the five special
characters to their entities and leaves every other character unchanged,
`_format_mcq` applies it to title, question_text, prompt (and choice
text), while `_format_tf` substitutes its title and prompt completely
unescaped (as do the Match, Order, Essay and FIB formatters, refuted
concretely by the counterexample). -/
theorem c1_escaping_only_in_mcq :
    (∀ s, escapeXmlChars s = expandChars escChar s)
    ∧ escChar '&' = S "&amp;" ∧ escChar '<' = S "&lt;" ∧ escChar '>' = S "&gt;"
    ∧ escChar '"' = S "&quot;" ∧ escChar '\'' = S "&apos;"
    ∧ (∀ q entries ca,
        lookupBinding (mcqBindings q entries ca) (S "title")
          = escapeVal (dgetD q (S "title") (.vstr []))
        ∧ lookupBinding (mcqBindings q entries ca) (S "question_text")
          = escapeVal (dgetD q (S "question_text") (.vstr []))
        ∧ lookupBinding (mcqBindings q entries ca) (S "prompt")
          = escapeVal (dgetD q (S "prompt") (.vstr [])))
    ∧ (∀ idv tv pv cv,
        lookupBinding (tfBindings idv tv pv cv) (S "title") = pyToStr tv
        ∧ lookupBinding (tfBindings idv tv pv cv) (S "prompt") = pyToStr pv) :=
  ⟨escapeXmlChars_eq_expand, rfl, rfl, rfl, rfl, rfl,
   fun _ _ _ => ⟨rfl, rfl, rfl⟩, fun _ _ _ _ => ⟨rfl, rfl⟩⟩

/-!
## C3: per-question failure isolation in the batch driver
-/

theorem convertQuestions_foldl_counts (qs : List Dict) :
    ∀ acc : List Str × List Str,
      (qs.foldl convertStep acc).1.length
        = acc.1.length + (qs.filter fun q => isOkE (processQuestion q)).length
      ∧ (qs.foldl convertStep acc).2.length
        = acc.2.length + (qs.filter fun q => !isOkE (processQuestion q)).length := by
  induction qs with
  | nil => intro acc; simp
  | cons q rest ih =>
      intro acc
      rw [List.foldl_cons]
      have hstep := ih (convertStep acc q)
      cases hp : processQuestion q with
      | ok xml =>
          have hcs : convertStep acc q = (acc.1 ++ [xml], acc.2) := by
            simp [convertStep, hp]
          rw [hcs] at hstep
          have hfo : List.filter (fun q => isOkE (processQuestion q)) (q :: rest)
              = q :: List.filter (fun q => isOkE (processQuestion q)) rest := by
            simp [List.filter_cons, isOkE, hp]
          have hff : List.filter (fun q => !isOkE (processQuestion q)) (q :: rest)
              = List.filter (fun q => !isOkE (processQuestion q)) rest := by
            simp [List.filter_cons, isOkE, hp]
          rw [hcs, hfo, hff]
          refine ⟨?_, ?_⟩
          · rw [hstep.1]
            simp only [List.length_append, List.length_cons, List.length_nil]
            omega
          · rw [hstep.2]
      | error e =>
          have hcs : convertStep acc q = (acc.1, acc.2 ++ [convertErrMsg q e]) := by
            simp [convertStep, hp]
          rw [hcs] at hstep
          have hfo : List.filter (fun q => isOkE (processQuestion q)) (q :: rest)
              = List.filter (fun q => isOkE (processQuestion q)) rest := by
            simp [List.filter_cons, isOkE, hp]
          have hff : List.filter (fun q => !isOkE (processQuestion q)) (q :: rest)
              = q :: List.filter (fun q => !isOkE (processQuestion q)) rest := by
            simp [List.filter_cons, isOkE, hp]
          rw [hcs, hfo, hff]
          refine ⟨?_, ?_⟩
          · rw [hstep.1]
          · rw [hstep.2]
            simp only [List.length_append, List.length_cons, List.length_nil]
            omega

theorem filter_length_partition (p : Dict → Bool) (qs : List Dict) :
    (qs.filter p).length + (qs.filter fun q => !p q).length = qs.length := by
  induction qs with
  | nil => rfl
  | cons q rest ih =>
      by_cases h : p q <;> simp [List.filter_cons, h, ih] <;> omega

/-- C3.  For every input whose parsed question blocks contain exactly one
that fails to convert, the batch driver returns one XML string per other
block and records exactly one error.  The per-question pipeline is an
`Except` value consumed in a total fold (lines 278-294, the
`try/except/continue` loop), so no single block's failure can abort the
others: `convert` is total by construction. -/
theorem c3_single_failure_isolated (s : Str)
    (h : ((customYamlParse s).filter fun q => !isOkE (processQuestion q)).length = 1) :
    (convert s).1.length + 1 = (customYamlParse s).length
    ∧ (convert s).2.length = 1 := by
  have hc := convertQuestions_foldl_counts (customYamlParse s) ([], [])
  have hp := filter_length_partition (fun q => isOkE (processQuestion q)) (customYamlParse s)
  unfold convert convertQuestions
  constructor
  · rw [hc.1]
    simp only [List.length_nil, Nat.zero_add]
    omega
  · rw [hc.2]
    simp only [List.length_nil, Nat.zero_add]
    exact h

/-- C3, witness: three blocks, of which exactly the middle one (an
unknown type) fails; two XML strings and one error come back. -/
theorem c3_witness :
    ((customYamlParse c3Input).filter fun q => !isOkE (processQuestion q)).length = 1
    ∧ ((convert c3Input).1.length + 1 = (customYamlParse c3Input).length
       ∧ (convert c3Input).2.length = 1) :=
  ⟨rfl, c3_single_failure_isolated c3Input rfl⟩

/-!
## C9: empty and whitespace-only input
-/

theorem splitLines_ne_nil (s : Str) : splitLines s ≠ [] := by
  induction s with
  | nil => simp [splitLines]
  | cons c rest ih =>
      by_cases h : c = '\n'
      · simp [splitLines, h]
      · simp only [splitLines, if_neg h]
        cases hr : splitLines rest with
        | nil => exact absurd hr ih
        | cons l ls => simp

theorem mem_splitLines (s : Str) (l : Str) (hl : l ∈ splitLines s) :
    ∀ c ∈ l, c ∈ s := by
  induction s generalizing l with
  | nil =>
      simp [splitLines] at hl
      subst hl
      simp
  | cons x rest ih =>
      by_cases h : x = '\n'
      · rw [splitLines, if_pos h] at hl
        rcases List.mem_cons.1 hl with h1 | h1
        · subst h1; simp
        · intro c hc
          exact List.mem_cons_of_mem _ (ih l h1 c hc)
      · rw [splitLines, if_neg h] at hl
        cases hr : splitLines rest with
        | nil => exact absurd hr (splitLines_ne_nil rest)
        | cons l0 ls =>
            rw [hr] at hl
            rcases List.mem_cons.1 hl with h1 | h1
            · subst h1
              intro c hc
              rcases List.mem_cons.1 hc with h2 | h2
              · subst h2; simp
              · have : l0 ∈ splitLines rest := by rw [hr]; simp
                exact List.mem_cons_of_mem _ (ih l0 this c h2)
            · intro c hc
              have : l ∈ splitLines rest := by rw [hr]; exact List.mem_cons_of_mem _ h1
              exact List.mem_cons_of_mem _ (ih l this c hc)

theorem joinLines_splitLines (s : Str) : joinLines (splitLines s) = s := by
  induction s with
  | nil => rfl
  | cons x rest ih =>
      by_cases h : x = '\n'
      · rw [splitLines, if_pos h]
        cases hr : splitLines rest with
        | nil => exact absurd hr (splitLines_ne_nil rest)
        | cons l0 ls =>
            rw [hr] at ih
            subst h
            simp [joinLines, ih]
      · rw [splitLines, if_neg h]
        cases hr : splitLines rest with
        | nil => exact absurd hr (splitLines_ne_nil rest)
        | cons l0 ls =>
            rw [hr] at ih
            cases ls with
            | nil => simp [joinLines] at ih ⊢; exact ih
            | cons l1 ls' => simp [joinLines] at ih ⊢; exact ih

theorem dropWhile_of_all (p : Char → Bool) (l : Str) (h : ∀ c ∈ l, p c = true) :
    l.dropWhile p = [] := by
  induction l with
  | nil => rfl
  | cons c rest ih =>
      rw [List.dropWhile_cons, if_pos (h c (by simp))]
      exact ih fun c hc => h c (List.mem_cons_of_mem _ hc)

theorem pyStrip_of_all_space (s : Str) (h : ∀ c ∈ s, pySpace c = true) :
    pyStrip s = [] := by
  unfold pyStrip pyLstrip pyRstrip
  rw [dropWhile_of_all pySpace s h]
  rfl

theorem isMarkerLine_of_all_space (l : Str) (h : ∀ c ∈ l, pySpace c = true) :
    isMarkerLine l = false := by
  cases l with
  | nil => rfl
  | cons c rest =>
      have hc := h c (by simp)
      unfold isMarkerLine startsWith S
      have : ('-' == c) = false := by
        have : c ≠ '-' := by
          intro he
          subst he
          simp [pySpace] at hc
        simp [beq_iff_eq]
        exact fun he => this he.symm
      simp [List.isPrefixOf, this]

theorem groupBlocksGo_no_marker (ls : List Str) (h : ∀ l ∈ ls, isMarkerLine l = false) :
    ∀ acc, groupBlocksGo acc ls = [acc.reverse ++ ls] := by
  induction ls with
  | nil => intro acc; simp [groupBlocksGo]
  | cons l rest ih =>
      intro acc
      rw [groupBlocksGo, if_neg (by simp [h l (by simp)])]
      rw [ih (fun l hl => h l (List.mem_cons_of_mem _ hl)) (l :: acc)]
      simp

/-- C9.  An input that is empty or consists only of whitespace parses to
an empty question list, and `convert` returns no XML and no errors rather
than raising: the single block produced by the `- type:` split is
whitespace-only and is skipped at line 664. -/
theorem c9_blank_input_yields_empty (s : Str) (h : ∀ c ∈ s, pySpace c = true) :
    customYamlParse s = [] ∧ convert s = ([], []) := by
  have hlines : ∀ l ∈ splitLines s, isMarkerLine l = false := fun l hl =>
    isMarkerLine_of_all_space l fun c hc => h c (mem_splitLines s l hl c hc)
  have hblocks : splitTypeBlocks s = [s] := by
    unfold splitTypeBlocks
    rw [groupBlocksGo_no_marker (splitLines s) hlines []]
    simp [joinLines_splitLines]
  have hparse : customYamlParse s = [] := by
    unfold customYamlParse
    rw [hblocks]
    simp [pyStrip_of_all_space s h]
  refine ⟨hparse, ?_⟩
  unfold convert
  rw [hparse]
  rfl

/-- C9, witness at a whitespace-only input. -/
theorem c9_witness :
    (∀ c ∈ c9Input, pySpace c = true)
    ∧ (customYamlParse c9Input = [] ∧ convert c9Input = ([], [])) :=
  ⟨by decide, c9_blank_input_yields_empty c9Input (by decide)⟩

/-!
## C5 (amended): where boolean coercion applies
-/

/-- C5, amended.  Boolean coercion is applied to every top-level scalar
field — including the free-text fields `prompt`, `text` and
`question_text` (so `prompt: true` parses to the boolean `True`, refuted
concretely by the counterexample) — while inside a choice list the `text`
field is stored as a string, never coerced (only `correct` is). -/
theorem c5_top_level_coercion_is_uniform :
    (∀ (st : PState) (line k v : Str),
      st.inChoices = false → st.inMatchSets = false → st.inCorrectPairs = false →
      st.inCorrectSequence = false → st.inFibAnswers = false →
      containsSub line [':'] = true → splitOnce line ':' = some (k, v) →
      stepRegular st line
        = .fall { st with qdict := dset st.qdict (pyStrip k) (coerceScalar (stripScalarQuotes (pyStrip v))) })
    ∧ (∀ v, pyLower v = S "true" → coerceScalar v = .vbool true)
    ∧ (∀ (st : PState) (line ls f v : Str) (rest : List Str),
      st.inChoices = true → truthyODict st.currentChoice = true →
      startsWith ls (S "- identifier:") = false →
      containsSub line [':'] = true → splitOnce ls ':' = some (f, v) →
      pyStrip f = S "text" →
      startsWith (scalarClean v) (S "\"\"\"") = false →
      startsWith (scalarClean v) (S "'''") = false →
      stepChoices st line ls rest
        = .fall { st with currentChoice := some (dset (st.currentChoice.getD []) (S "text") (.vstr (scalarClean v))) }) := by
  refine ⟨?_, ?_, ?_⟩
  · intro st line k v h1 h2 h3 h4 h5 hc hsplit
    unfold stepRegular
    rw [hc, h1, h2, h3, h4, h5, hsplit]
    simp
  · intro v hv
    unfold coerceScalar
    rw [hv]
    simp
  · intro st line ls f v rest h1 h2 hni hc hsplit hf hq1 hq2
    unfold stepChoices
    rw [h1, hni, h2, hc, hsplit]
    simp [hf, hq1, hq2]

/-- C5, witness: a top-level `prompt: true` line is stored as the boolean
`True`, and a choice-level `text: true` line is stored as the string
`"true"`. -/
theorem c5_witness :
    (stepRegular (initPState []) (S "prompt: true")
      = .fall { initPState [] with qdict := dset [] (pyStrip (S "prompt")) (coerceScalar (stripScalarQuotes (pyStrip (S " true")))) })
    ∧ coerceScalar (S "true") = .vbool true
    ∧ (stepChoices
        { initPState [] with inChoices := true, currentChoice := some [(S "identifier", .vstr (S "A"))] }
        (S "  text: true") (S "text: true") []
      = .fall { { initPState [] with inChoices := true, currentChoice := some [(S "identifier", .vstr (S "A"))] } with currentChoice := some (dset [(S "identifier", .vstr (S "A"))] (S "text") (.vstr (scalarClean (S " true")))) }) :=
  ⟨c5_top_level_coercion_is_uniform.1 (initPState []) (S "prompt: true")
      (S "prompt") (S " true") rfl rfl rfl rfl rfl rfl rfl,
   c5_top_level_coercion_is_uniform.2.1 (S "true") rfl,
   c5_top_level_coercion_is_uniform.2.2
      { initPState [] with inChoices := true, currentChoice := some [(S "identifier", .vstr (S "A"))] }
      (S "  text: true") (S "text: true") (S "text") (S " true") []
      rfl rfl rfl rfl rfl rfl rfl rfl⟩

/-!
## C2 (amended): the validator's blank count is the underscore-run count
-/

theorem checkFibAnswers_vstr (qid : Str) (l : List Str) :
    checkFibAnswers qid (l.map .vstr) = .ok () := by
  induction l with
  | nil => rfl
  | cons a rest ih =>
      by_cases h : (a = S "-" || a = S "---") = true
      · simp [checkFibAnswers, h, ih]
      · simp [checkFibAnswers, h, ih]

theorem checkFibSets_vstr (qid : Str) (gs : List (List Str)) (h : ∀ g ∈ gs, g ≠ []) :
    ∀ i, checkFibSets qid i (gs.map fun g => Value.vlist (g.map .vstr)) = .ok () := by
  induction gs with
  | nil => intro i; rfl
  | cons g rest ih =>
      intro i
      have hg : (g.map Value.vstr).isEmpty = false := by
        cases g with
        | nil => exact absurd rfl (h [] (by simp))
        | cons a as => rfl
      simp only [List.map_cons, checkFibSets, hg]
      rw [checkFibAnswers_vstr]
      have := ih (fun g hg' => h g (List.mem_cons_of_mem _ hg')) (i + 1)
      simp only [Bool.false_eq_true, if_false]
      simpa [Except.bind] using this

/-- C2, amended.  `_validate_fib` counts blanks as the number of maximal
runs of underscores anywhere in the prompt (`re.findall(r'_+', …)`), so
`foo_bar` contributes one blank — the standalone-underscore scan the
claim describes lives in the FIB emitter `_format_fib`, not the
validator.  For a parser-shaped FIB map (string prompt containing an
underscore, non-empty string answer groups, no `expectedLength`), the
validator accepts exactly when the run count equals the group count, and
otherwise rejects with the error naming the question identifier, the
answer-group count and the blank count. -/
theorem c2_validator_counts_underscore_runs (id p : Str) (groups : List (List Str))
    (hp : containsSub p [ '_' ] = true)
    (hne : ∀ g ∈ groups, g ≠ []) :
    (validateFib (mkFibDict id p groups) = .ok ()
      ↔ countUnderscoreRuns p = groups.length)
    ∧ (countUnderscoreRuns p ≠ groups.length →
        validateFib (mkFibDict id p groups)
          = .error (fibValMismatchMsg id groups.length (countUnderscoreRuns p))) := by
  have hform : validateFib (mkFibDict id p groups)
      = if (!containsSub p [ '_' ]) = true
        then Except.error (S "FIB question " ++ id ++ S ": Prompt must contain blank(s) marked with _")
        else if (!true || decide (¬(groups.map fun g => Value.vlist (List.map Value.vstr g)).length = countUnderscoreRuns p)) = true
        then Except.error (fibValMismatchMsg id (groups.map fun g => Value.vlist (List.map Value.vstr g)).length (countUnderscoreRuns p))
        else Except.bind (checkFibSets id 1 (groups.map fun g => Value.vlist (List.map Value.vstr g))) (fun _ => Except.pure ()) := rfl
  have hsets := checkFibSets_vstr id groups hne 1
  by_cases hcnt : countUnderscoreRuns p = groups.length
  · have hok : validateFib (mkFibDict id p groups) = .ok () := by
      rw [hform, hp]
      simp [List.length_map, hcnt, hsets, Except.bind, Except.pure]
    exact ⟨by simp [hok, hcnt], fun hne' => absurd hcnt hne'⟩
  · have herr : validateFib (mkFibDict id p groups)
        = .error (fibValMismatchMsg id groups.length (countUnderscoreRuns p)) := by
      rw [hform, hp]
      simp [List.length_map]
      intro he
      exact absurd he.symm hcnt
    refine ⟨?_, fun _ => herr⟩
    rw [herr]
    simp [hcnt]

/-- C2, witness: a prompt with one standalone underscore and one answer
group is accepted; with two answer groups it is rejected with the message
naming the identifier and both counts. -/
theorem c2_witness :
    containsSub (S "a _ b") [ '_' ] = true
    ∧ ((validateFib (mkFibDict (S "Q1") (S "a _ b") [[S "x"]]) = .ok ()
          ↔ countUnderscoreRuns (S "a _ b") = 1)
       ∧ (countUnderscoreRuns (S "a _ b") ≠ 1 →
            validateFib (mkFibDict (S "Q1") (S "a _ b") [[S "x"]])
              = .error (fibValMismatchMsg (S "Q1") 1 (countUnderscoreRuns (S "a _ b"))))) :=
  ⟨rfl, c2_validator_counts_underscore_runs (S "Q1") (S "a _ b") [[S "x"]] rfl (by decide)⟩

/-!
## Shared lemmas about the MCQ emitter
-/

theorem except_bind_ok {α β : Type} (a : α) (f : α → Except Str β) :
    ((Except.ok a : Except Str α) >>= f) = f a := rfl

theorem except_map_ok {α β : Type} (f : α → β) (a : α) :
    (f <$> (Except.ok a : Except Str α)) = .ok (f a) := rfl

theorem mapE_expectDictV_map (cs : List Dict) :
    mapE expectDictV (cs.map .vdict) = .ok cs := by
  induction cs with
  | nil => rfl
  | cons c rest ih =>
      show ((Except.ok c : Except Str Dict) >>= fun b =>
        mapE expectDictV (rest.map .vdict) >>= fun bs => pure (b :: bs)) = _
      rw [except_bind_ok, ih, except_bind_ok]
      rfl

theorem mapE_mcq_entries (cs : List Dict)
    (hids : ∀ c ∈ cs, (dget c (S "identifier")).isSome = true) :
    mapE (fun c => do
        let idv ← expectKey c (S "identifier")
        pure (idv, escapeVal (dgetD c (S "text") (.vstr [])))) cs
      = .ok (mcqEntries cs) := by
  induction cs with
  | nil => rfl
  | cons c rest ih =>
      cases hv : dget c (S "identifier") with
      | none =>
          have := hids c (by simp)
          rw [hv] at this
          simp at this
      | some v =>
          have hk : expectKey c (S "identifier") = .ok v := by
            unfold expectKey
            rw [hv]
          show (mapE _ (c :: rest)) = _
          rw [mapE]
          rw [show ((expectKey c (S "identifier") >>= fun idv =>
                pure (idv, escapeVal (dgetD c (S "text") (.vstr [])))) : Except Str (Value × Str))
              = .ok (v, escapeVal (dgetD c (S "text") (.vstr []))) from by rw [hk]; rfl]
          rw [except_bind_ok, ih (fun d hd => hids d (List.mem_cons_of_mem _ hd)), except_bind_ok]
          show Except.ok _ = _
          unfold mcqEntries
          rw [List.map_cons]
          rw [show (dget c (S "identifier")).getD (.vstr []) = v from by rw [hv]; rfl]

theorem formatMcq_shape (q : Dict) (cs : List Dict)
    (hch : dget q (S "choices") = some (.vlist (cs.map .vdict)))
    (hids : ∀ c ∈ cs, (dget c (S "identifier")).isSome = true) :
    formatMcq q
      = .ok (renderTemplate mcqTemplate (mcqBindings q (mcqEntries cs) (mcqCorrectAnswer cs))) := by
  unfold formatMcq
  rw [show dgetD q (S "choices") (.vlist []) = .vlist (cs.map .vdict) from by
        unfold dgetD; rw [hch]; rfl]
  rw [show expectList (Value.vlist (cs.map Value.vdict)) = .ok (cs.map Value.vdict) from rfl]
  rw [except_bind_ok, mapE_expectDictV_map, except_bind_ok, mapE_mcq_entries cs hids,
      except_bind_ok]
  rfl

theorem find?_of_unique_filter (p : Dict → Bool) (cs : List Dict) (c : Dict)
    (hmem : c ∈ cs) (hc : p c = true)
    (huniq : (cs.filter p).length = 1) :
    cs.find? p = some c := by
  induction cs with
  | nil => cases hmem
  | cons d rest ih =>
      by_cases hd : p d
      · have hfind : (d :: rest).find? p = some d := List.find?_cons_of_pos _ hd
        have hfe : (rest.filter p).length = 0 := by
          rw [List.filter_cons, if_pos hd] at huniq
          simp only [List.length_cons] at huniq
          omega
        have hrest : rest.filter p = [] := by
          cases hl : rest.filter p with
          | nil => rfl
          | cons a as =>
              rw [hl] at hfe
              simp at hfe
        rcases List.mem_cons.1 hmem with h1 | h1
        · rw [hfind, h1]
        · exfalso
          have : c ∈ rest.filter p := List.mem_filter.2 ⟨h1, hc⟩
          rw [hrest] at this
          cases this
      · have hfind : (d :: rest).find? p = rest.find? p :=
          List.find?_cons_of_neg _ (by simp [hd])
        rw [List.filter_cons, if_neg hd] at huniq
        rcases List.mem_cons.1 hmem with h1 | h1
        · exact absurd (h1 ▸ hc) hd
        · rw [hfind]
          exact ih h1 huniq

theorem mcqCorrectAnswer_of_unique (cs : List Dict) (c : Dict) (idc : Str)
    (hmem : c ∈ cs) (hc : truthyOpt (dget c (S "correct")) = true)
    (huniq : (cs.filter fun d => truthyOpt (dget d (S "correct"))).length = 1)
    (hid : dget c (S "identifier") = some (.vstr idc)) (hne : idc ≠ []) :
    mcqCorrectAnswer cs = idc := by
  have hfind := find?_of_unique_filter (fun d => truthyOpt (dget d (S "correct"))) cs c hmem hc huniq
  unfold mcqCorrectAnswer
  rw [hfind]
  have hemp : idc.isEmpty = false := by
    cases idc with
    | nil => exact absurd rfl hne
    | cons a as => rfl
  show (match dget c (S "identifier") with
        | some v => if pyTruthy v = true then pyToStr v else S "A"
        | none => S "A") = idc
  rw [hid]
  show (if pyTruthy (Value.vstr idc) = true then pyToStr (Value.vstr idc) else S "A") = idc
  rw [show pyTruthy (Value.vstr idc) = !idc.isEmpty from rfl, hemp]
  rfl

/-!
## C6 (amended) and C10
-/

/-- C6, amended.  For every MCQ field map that passes `_validate_choices`
(at least 4 choices, exactly one truthy `correct`), provided the unique
correct choice's identifier is a non-empty string, the emitter binds that
identifier as the correct-response value, and the template carries
exactly one correct-response placeholder (an empty identifier instead
falls back to the literal `A`, as the counterexample shows). -/
theorem c6_unique_correct_identifier_emitted
    (q : Dict) (cs : List Dict) (c : Dict) (idc : Str)
    (hch : dget q (S "choices") = some (.vlist (cs.map .vdict)))
    (hval : validateChoices q (S "mcq") = .ok ())
    (hids : ∀ d ∈ cs, (dget d (S "identifier")).isSome = true)
    (hmem : c ∈ cs) (hc : truthyOpt (dget c (S "correct")) = true)
    (huniq : (cs.filter fun d => truthyOpt (dget d (S "correct"))).length = 1)
    (hid : dget c (S "identifier") = some (.vstr idc)) (hne : idc ≠ []) :
    mcqCorrectAnswer cs = idc
    ∧ formatMcq q = .ok (renderTemplate mcqTemplate (mcqBindings q (mcqEntries cs) idc))
    ∧ lookupBinding (mcqBindings q (mcqEntries cs) idc) (S "correct_answer") = idc
    ∧ countHoles mcqTemplate (S "correct_answer") = 1 := by
  have hca := mcqCorrectAnswer_of_unique cs c idc hmem hc huniq hid hne
  refine ⟨hca, ?_, rfl, rfl⟩
  rw [formatMcq_shape q cs hch hids, hca]

/-- C6, witness: a four-choice MCQ whose third choice `C` is the unique
correct one. -/
theorem c6_witness :
    dget c6GoodQuestion (S "choices") = some (.vlist (c6GoodChoices.map .vdict))
    ∧ validateChoices c6GoodQuestion (S "mcq") = .ok ()
    ∧ (mcqCorrectAnswer c6GoodChoices = S "C"
       ∧ formatMcq c6GoodQuestion
          = .ok (renderTemplate mcqTemplate (mcqBindings c6GoodQuestion (mcqEntries c6GoodChoices) (S "C")))
       ∧ lookupBinding (mcqBindings c6GoodQuestion (mcqEntries c6GoodChoices) (S "C")) (S "correct_answer") = S "C"
       ∧ countHoles mcqTemplate (S "correct_answer") = 1) :=
  ⟨rfl, rfl,
   c6_unique_correct_identifier_emitted c6GoodQuestion c6GoodChoices
     (c6GoodChoices.get ⟨2, by decide⟩) (S "C") rfl rfl (by decide)
     (by exact List.mem_cons_of_mem _ (List.mem_cons_of_mem _ (List.mem_cons_self _ _)))
     rfl rfl rfl (by decide)⟩

theorem isPrefixOf_append (p l t : Str) (h : p.isPrefixOf l = true) :
    p.isPrefixOf (l ++ t) = true := by
  rw [List.isPrefixOf_iff_prefix] at h ⊢
  exact h.trans (List.prefix_append l t)

theorem ampRefOk_append (rest t : Str) (h : ampRefOk rest = true) :
    ampRefOk (rest ++ t) = true := by
  unfold ampRefOk at h ⊢
  rw [List.any_eq_true] at h ⊢
  obtain ⟨p, hp, hpre⟩ := h
  exact ⟨p, hp, isPrefixOf_append _ _ _ hpre⟩

theorem bareAmpFree_append (a b : Str)
    (ha : bareAmpFree a = true) (hb : bareAmpFree b = true) :
    bareAmpFree (a ++ b) = true := by
  induction a with
  | nil => exact hb
  | cons c rest ih =>
      simp only [bareAmpFree, Bool.and_eq_true] at ha
      obtain ⟨h1, h2⟩ := ha
      simp only [List.cons_append, bareAmpFree, Bool.and_eq_true]
      refine ⟨?_, ih h2⟩
      by_cases hc : c = '&'
      · rw [if_pos hc] at h1 ⊢
        exact ampRefOk_append rest b h1
      · rw [if_neg hc]

theorem bareAmpFree_escChar (c : Char) : bareAmpFree (escChar c) = true := by
  by_cases h1 : c = '&'
  · subst h1; decide
  · by_cases h2 : c = '<'
    · subst h2; decide
    · by_cases h3 : c = '>'
      · subst h3; decide
      · by_cases h4 : c = '"'
        · subst h4; decide
        · by_cases h5 : c = '\''
          · subst h5; decide
          · simp [escChar, h1, h2, h3, h4, h5, bareAmpFree]

theorem bareAmpFree_escape (s : Str) : bareAmpFree (escapeXmlChars s) = true := by
  rw [escapeXmlChars_eq_expand]
  induction s with
  | nil => rfl
  | cons c rest ih => exact bareAmpFree_append _ _ (bareAmpFree_escChar c) ih

theorem bareAmpFree_escapeVal (v : Value) : bareAmpFree (escapeVal v) = true :=
  bareAmpFree_escape (pyToStr v)

theorem noSpecials_bareAmpFree (s : Str) (h : noSpecials s = true) :
    bareAmpFree s = true := by
  induction s with
  | nil => rfl
  | cons c rest ih =>
      simp only [noSpecials, List.all_cons, Bool.and_eq_true] at h
      obtain ⟨hch, hrest⟩ := h
      have hc : c ≠ '&' := by
        intro he
        subst he
        simp at hch
      simp only [bareAmpFree, if_neg hc, Bool.true_and]
      exact ih hrest

theorem bareAmpFree_lookupAux (k : Str) :
    ∀ (cs : List Dict) (acc : Str), bareAmpFree acc = true →
      bareAmpFree (List.foldl (fun acc p => match p.1 with
        | Value.vstr s => if s = k then p.2 else acc
        | _ => acc) acc (mcqEntries cs)) = true := by
  intro cs
  induction cs with
  | nil => intro acc hacc; exact hacc
  | cons c rest ih =>
      intro acc hacc
      have hstep : bareAmpFree (match (dget c (S "identifier")).getD (.vstr []) with
          | Value.vstr s => if s = k then escapeVal (dgetD c (S "text") (.vstr [])) else acc
          | _ => acc) = true := by
        cases (dget c (S "identifier")).getD (.vstr []) with
        | vstr s =>
            show bareAmpFree (if s = k then escapeVal (dgetD c (S "text") (.vstr [])) else acc)
              = true
            by_cases hs : s = k
            · rw [if_pos hs]
              exact bareAmpFree_escapeVal _
            · rw [if_neg hs]
              exact hacc
        | vbool b => exact hacc
        | vint n => exact hacc
        | vlist xs => exact hacc
        | vdict d => exact hacc
      exact ih _ hstep

theorem bareAmpFree_lookupLastStrKey (cs : List Dict) (k : Str) :
    bareAmpFree (lookupLastStrKey (mcqEntries cs) k) = true :=
  bareAmpFree_lookupAux k cs [] rfl

theorem mcq_render_bareAmpFree (q : Dict) (cs : List Dict)
    (hqi : hasKey q (S "question_image") = false)
    (hid : noSpecials (pyToStr (dgetD q (S "identifier") (.vstr []))) = true) :
    bareAmpFree (renderTemplate mcqTemplate (mcqBindings q (mcqEntries cs) (S "A"))) = true := by
  have himg : mcqQuestionImage q = [] := by
    unfold mcqQuestionImage
    rw [hqi]
    rfl
  have eIdent : lookupBinding (mcqBindings q (mcqEntries cs) (S "A")) (S "identifier")
      = pyToStr (dgetD q (S "identifier") (.vstr [])) := rfl
  have eTitle : lookupBinding (mcqBindings q (mcqEntries cs) (S "A")) (S "title")
      = escapeVal (dgetD q (S "title") (.vstr [])) := rfl
  have eQT : lookupBinding (mcqBindings q (mcqEntries cs) (S "A")) (S "question_text")
      = escapeVal (dgetD q (S "question_text") (.vstr [])) := rfl
  have eQI : lookupBinding (mcqBindings q (mcqEntries cs) (S "A")) (S "question_image")
      = mcqQuestionImage q := rfl
  have ePrompt : lookupBinding (mcqBindings q (mcqEntries cs) (S "A")) (S "prompt")
      = escapeVal (dgetD q (S "prompt") (.vstr [])) := rfl
  have eCA : lookupBinding (mcqBindings q (mcqEntries cs) (S "A")) (S "correct_answer")
      = S "A" := rfl
  have eA : lookupBinding (mcqBindings q (mcqEntries cs) (S "A")) (S "choice_a")
      = lookupLastStrKey (mcqEntries cs) (S "A") := rfl
  have eB : lookupBinding (mcqBindings q (mcqEntries cs) (S "A")) (S "choice_b")
      = lookupLastStrKey (mcqEntries cs) (S "B") := rfl
  have eC : lookupBinding (mcqBindings q (mcqEntries cs) (S "A")) (S "choice_c")
      = lookupLastStrKey (mcqEntries cs) (S "C") := rfl
  have eD : lookupBinding (mcqBindings q (mcqEntries cs) (S "A")) (S "choice_d")
      = lookupLastStrKey (mcqEntries cs) (S "D") := rfl
  simp only [mcqTemplate, renderTemplate, eIdent, eTitle, eQT, eQI, ePrompt, eCA,
    eA, eB, eC, eD, himg]
  repeat' apply bareAmpFree_append
  all_goals first
    | decide
    | exact noSpecials_bareAmpFree _ hid
    | exact bareAmpFree_escapeVal _
    | exact bareAmpFree_lookupLastStrKey _ _

/-- C10, counterexample.  The claim says every no-correct MCQ field map
yields XML output.  `c10AmpQuestion` satisfies the claim's premise (four
choices, none truthy-correct), and the emitter indeed falls back to the
literal `A` — but its identifier `a&b` reaches the template unescaped,
`_prettify`'s minidom parse rejects the non-well-formed result, and the
batch loop records one (conversion, not validation) error and outputs no
XML for it. -/
theorem c10_counterexample :
    mcqCorrectAnswer c10Choices = S "A"
    ∧ (c10Choices.all fun c => !truthyOpt (dget c (S "correct"))) = true
    ∧ (convertQuestions [c10AmpQuestion]).1 = []
    ∧ (convertQuestions [c10AmpQuestion]).2.length = 1 :=
  ⟨rfl, rfl, rfl, rfl⟩

/-- C10, amended.  For every MCQ field map in which no choice is
truthy-correct, the emitter does not fail — it silently binds the
literal `A` as the correct-response value — and, because the batch
`convert` path never calls `validate_question` (no such call exists on
the conversion path), no validation error is ever recorded.  Provided
the fields that reach the template unescaped are harmless (an identifier
free of the five XML special characters, no `question_image`), the
rendered XML is well-formed, `_prettify` accepts it, and the question
yields one XML output and no recorded error; a field that breaks
well-formedness instead records a conversion error with no XML, as the
counterexample shows — still never a validation error. -/
theorem c10_no_correct_choice_emits_A
    (q : Dict) (cs : List Dict)
    (htype : dget q (S "type") = some (.vstr (S "mcq")))
    (hch : dget q (S "choices") = some (.vlist (cs.map .vdict)))
    (hids : ∀ c ∈ cs, (dget c (S "identifier")).isSome = true)
    (hnone : ∀ c ∈ cs, truthyOpt (dget c (S "correct")) = false)
    (hqi : hasKey q (S "question_image") = false)
    (hid : noSpecials (pyToStr (dgetD q (S "identifier") (.vstr []))) = true) :
    mcqCorrectAnswer cs = S "A"
    ∧ formatMcq q = .ok (renderTemplate mcqTemplate (mcqBindings q (mcqEntries cs) (S "A")))
    ∧ processQuestion q
        = .ok (renderTemplate mcqTemplate (mcqBindings q (mcqEntries cs) (S "A")))
    ∧ (convertQuestions [q]).1.length = 1
    ∧ (convertQuestions [q]).2 = [] := by
  have hfind : cs.find? (fun d => truthyOpt (dget d (S "correct"))) = none :=
    List.find?_eq_none.2 fun d hd => by simp [hnone d hd]
  have hca : mcqCorrectAnswer cs = S "A" := by
    unfold mcqCorrectAnswer
    rw [hfind]
  have hfm := formatMcq_shape q cs hch hids
  rw [hca] at hfm
  have hwf := mcq_render_bareAmpFree q cs hqi hid
  have hpq : processQuestion q
      = .ok (renderTemplate mcqTemplate (mcqBindings q (mcqEntries cs) (S "A"))) := by
    unfold processQuestion
    rw [htype]
    show (if (!truthyOpt (some (.vstr (S "mcq")))) = true then _ else _) = _
    rw [show (!truthyOpt (some (Value.vstr (S "mcq")))) = false from rfl]
    simp only [Bool.false_eq_true, if_false]
    show (formatQuestion q (S "mcq") >>= fun xml => prettify xml) = _
    rw [show formatQuestion q (S "mcq")
        = match formatMcq q with
          | .ok x => .ok x
          | .error m => .error (S "Error formatting question " ++
              pyToStr (dgetD q (S "identifier") (.vstr (S "unknown"))) ++
              S " of type " ++ (S "mcq") ++ S ": " ++ m) from rfl]
    rw [hfm]
    show prettify (renderTemplate mcqTemplate (mcqBindings q (mcqEntries cs) (S "A"))) = _
    unfold prettify
    rw [hwf]
    rfl
  have hcq : convertQuestions [q]
      = ([renderTemplate mcqTemplate (mcqBindings q (mcqEntries cs) (S "A"))], []) := by
    unfold convertQuestions
    rw [List.foldl_cons, List.foldl_nil]
    unfold convertStep
    rw [hpq]
    rfl
  refine ⟨hca, hfm, hpq, ?_, ?_⟩
  · rw [hcq]
    rfl
  · rw [hcq]

/-- C10, witness: a four-choice MCQ with every `correct` false and a
clean identifier converts to one XML output whose correct value is `A`,
with no error recorded. -/
theorem c10_witness :
    dget c10Question (S "type") = some (.vstr (S "mcq"))
    ∧ noSpecials (pyToStr (dgetD c10Question (S "identifier") (.vstr []))) = true
    ∧ (mcqCorrectAnswer c10Choices = S "A"
       ∧ formatMcq c10Question
          = .ok (renderTemplate mcqTemplate (mcqBindings c10Question (mcqEntries c10Choices) (S "A")))
       ∧ processQuestion c10Question
          = .ok (renderTemplate mcqTemplate (mcqBindings c10Question (mcqEntries c10Choices) (S "A")))
       ∧ (convertQuestions [c10Question]).1.length = 1
       ∧ (convertQuestions [c10Question]).2 = []) :=
  ⟨rfl, by decide,
   c10_no_correct_choice_emits_A c10Question c10Choices rfl rfl (by decide) (by decide)
     rfl (by decide)⟩

/-!
## C7 (amended): positional default pairs
-/

theorem dget_dset_self (d : Dict) (k : Str) (v : Value) :
    dget (dset d k v) k = some v := by
  induction d with
  | nil => simp [dset, dget]
  | cons p rest ih =>
      by_cases h : p.1 = k
      · simp [dset, dget, h]
      · simp [dset, dget, h, ih]

theorem genDefaultPairs_all_truthy (src tgt : List Dict)
    (hsid : ∀ c ∈ src, ∃ s : Str, dget c (S "identifier") = some (.vstr s) ∧ s ≠ [])
    (htid : ∀ c ∈ tgt, ∃ s : Str, dget c (S "identifier") = some (.vstr s) ∧ s ≠ []) :
    genDefaultPairs (src.map .vdict) (tgt.map .vdict)
      = (src.zip tgt).map fun p =>
          .vlist [(dget p.1 (S "identifier")).getD (.vstr []),
                  (dget p.2 (S "identifier")).getD (.vstr [])] := by
  induction src generalizing tgt with
  | nil => cases tgt <;> rfl
  | cons a as ih =>
      cases tgt with
      | nil => rfl
      | cons b bs =>
          obtain ⟨sa, hsa, hna⟩ := hsid a (by simp)
          obtain ⟨sb, hsb, hnb⟩ := htid b (by simp)
          have hea : sa.isEmpty = false := by
            cases sa with
            | nil => exact absurd rfl hna
            | cons x xs => rfl
          have heb : sb.isEmpty = false := by
            cases sb with
            | nil => exact absurd rfl hnb
            | cons x xs => rfl
          have hrest := ih bs (fun c hc => hsid c (List.mem_cons_of_mem _ hc))
            (fun c hc => htid c (List.mem_cons_of_mem _ hc))
          simp only [List.map_cons, List.zip_cons_cons, genDefaultPairs]
          rw [show itemIdentifier (Value.vdict a) = some (.vstr sa) from hsa,
              show itemIdentifier (Value.vdict b) = some (.vstr sb) from hsb,
              hrest, hsa, hsb]
          simp [pyTruthy, hea, heb]

/-- C7, amended.  When `matchSets` has non-empty source and target lists
and no `correctPairs` key is present, the parser's finalization
synthesizes `correctPairs` positionally — pair i joins the i-th source
identifier with the i-th target identifier — and this is not an error;
the pair count is `min(|source|, |target|)` whenever every identifier is
a non-empty string (a falsy identifier makes line 1005's guard silently
skip that pair, as the counterexample shows). -/
theorem c7_default_pairs_positional (d : Dict) (src tgt : List Dict)
    (hms : dget d (S "matchSets")
      = some (.vdict [(S "source", .vlist (src.map .vdict)),
                      (S "target", .vlist (tgt.map .vdict))]))
    (hcp : hasKey d (S "correctPairs") = false)
    (hs : src ≠ []) (ht : tgt ≠ [])
    (hsid : ∀ c ∈ src, ∃ s : Str, dget c (S "identifier") = some (.vstr s) ∧ s ≠ [])
    (htid : ∀ c ∈ tgt, ∃ s : Str, dget c (S "identifier") = some (.vstr s) ∧ s ≠ []) :
    dget (matchDefaultPairs d) (S "correctPairs")
      = some (.vlist ((src.zip tgt).map fun p =>
          .vlist [(dget p.1 (S "identifier")).getD (.vstr []),
                  (dget p.2 (S "identifier")).getD (.vstr [])]))
    ∧ ((src.zip tgt).map fun p =>
          Value.vlist [(dget p.1 (S "identifier")).getD (.vstr []),
                       (dget p.2 (S "identifier")).getD (.vstr [])]).length
        = min src.length tgt.length := by
  have hes : (src.map Value.vdict).isEmpty = false := by
    cases src with
    | nil => exact absurd rfl hs
    | cons a as => rfl
  have het : (tgt.map Value.vdict).isEmpty = false := by
    cases tgt with
    | nil => exact absurd rfl ht
    | cons a as => rfl
  have hgen := genDefaultPairs_all_truthy src tgt hsid htid
  constructor
  · unfold matchDefaultPairs
    rw [show hasKey d (S "matchSets") = true from by unfold hasKey; rw [hms]; rfl, hcp]
    rw [show ((true && !false : Bool)) = true from rfl]
    simp only [if_true]
    rw [hms]
    show dget (if (!(src.map Value.vdict).isEmpty && !(tgt.map Value.vdict).isEmpty) = true
               then dset d (S "correctPairs") (.vlist (genDefaultPairs (src.map .vdict) (tgt.map .vdict)))
               else d) (S "correctPairs") = _
    rw [hes, het]
    simp only [Bool.not_false, Bool.and_self, if_true]
    rw [hgen, dget_dset_self]
  · rw [List.length_map, List.length_zip]

/-- C7, witness: two source items and three target items with non-empty
identifiers yield exactly `min 2 3 = 2` positional pairs. -/
theorem c7_witness :
    dget c7GoodDict (S "matchSets")
      = some (.vdict [(S "source", .vlist (c7SrcGood.map .vdict)),
                      (S "target", .vlist (c7TgtGood.map .vdict))])
    ∧ (dget (matchDefaultPairs c7GoodDict) (S "correctPairs")
        = some (.vlist ((c7SrcGood.zip c7TgtGood).map fun p =>
            .vlist [(dget p.1 (S "identifier")).getD (.vstr []),
                    (dget p.2 (S "identifier")).getD (.vstr [])]))
       ∧ ((c7SrcGood.zip c7TgtGood).map fun p =>
            Value.vlist [(dget p.1 (S "identifier")).getD (.vstr []),
                         (dget p.2 (S "identifier")).getD (.vstr [])]).length
          = min c7SrcGood.length c7TgtGood.length) :=
  ⟨rfl,
   c7_default_pairs_positional c7GoodDict c7SrcGood c7TgtGood rfl rfl
     (by simp [c7SrcGood]) (by simp [c7TgtGood])
     (fun c hc => by
        fin_cases hc
        · exact ⟨S "S1", rfl, by decide⟩
        · exact ⟨S "S2", rfl, by decide⟩)
     (fun c hc => by
        fin_cases hc
        · exact ⟨S "T1", rfl, by decide⟩
        · exact ⟨S "T2", rfl, by decide⟩
        · exact ⟨S "T3", rfl, by decide⟩)⟩

end TeacherAide
